import Mathlib

/-!
# Verification of the SpaceHuggers engine core (`src/build/index.js`)

Shallow embedding of the LittleJS-style engine core bundled with the game:
the scalar/vector helpers, the tile-collision grid (`setTileCollisionData`,
`getTileCollisionData`, `tileCollisionTest`, `tileCollisionRaycast`), the
`EngineObject` physics update, the object hierarchy operations (`addChild`,
`removeChild`, `destroy`) and the per-tick scheduler (`engineUpdateObjects`).

Numbers are modelled as rationals (the JS engine uses IEEE doubles; every
constant appearing in the modelled code is an exact dyadic rational and no
claim depends on rounding).  The JS `x|0` coercion (truncate toward zero,
then wrap into 32-bit two's complement) is modelled exactly by `jsOr0`.
`Math.sqrt`, `Math.cos`, `Math.sin` and `randVector` reach the modelled code
only through branches no claim evaluates; they are supplied as uninterpreted
environment functions in `JsEnv`.
-/

/-- `abs` from index.js line 16: `a < 0 ? -a : a`. -/
def jsAbs (a : ℚ) : ℚ := if a < 0 then -a else a

/-- `sign` from index.js line 17: `a < 0 ? -1 : 1` (note `sign 0 = 1`). -/
def jsSign (a : ℚ) : ℚ := if a < 0 then -1 else 1

/-- `clamp(v, max, min)` from index.js line 21 (the `ASSERT` is a no-op in
this build, see line 156). -/
def jsClamp (v mx mn : ℚ) : ℚ := if v < mn then mn else if v > mx then mx else v

/-- Integer version of `abs` for the raycast walk (operands are integers). -/
def intAbs (a : ℤ) : ℤ := if a < 0 then -a else a

/-- Integer version of `sign` (`sign 0 = 1`, as in the source). -/
def intSign (a : ℤ) : ℤ := if a < 0 then -1 else 1

/-- JS ToInt32: wrap an integer into `[-2^31, 2^31)` (two's complement). -/
def toInt32 (z : ℤ) : ℤ := (z + 2 ^ 31) % 2 ^ 32 - 2 ^ 31

/-- Truncation toward zero, the integer part produced by JS `|0` before
wrapping. -/
def jsTrunc (q : ℚ) : ℤ := if q < 0 then -⌊-q⌋ else ⌊q⌋

/-- The JS `x|0` coercion on a double: truncate toward zero, wrap to 32 bits. -/
def jsOr0 (q : ℚ) : ℤ := toInt32 (jsTrunc q)

/-- `Vector2` (index.js line 43), restricted to its data: an (x, y) pair. -/
structure Vec2 where
  x : ℚ
  y : ℚ
deriving DecidableEq, Repr

/-- `Vector2.add` (line 50). -/
def vecAdd (a b : Vec2) : Vec2 := ⟨a.x + b.x, a.y + b.y⟩

/-- `Vector2.subtract` (line 51). -/
def vecSub (a b : Vec2) : Vec2 := ⟨a.x - b.x, a.y - b.y⟩

/-- `Vector2.multiply` (line 52), componentwise. -/
def vecMul (a b : Vec2) : Vec2 := ⟨a.x * b.x, a.y * b.y⟩

/-- `Vector2.scale` (line 49). -/
def vecScale (a : Vec2) (s : ℚ) : Vec2 := ⟨a.x * s, a.y * s⟩

/-- `Vector2.rotate(a)` (line 66) rotates by the cosine/sine pair of the
angle `a`; the trigonometric values are passed in explicitly because the
embedding keeps `Math.cos`/`Math.sin` uninterpreted. -/
def vecRotate (v : Vec2) (c s : ℚ) : Vec2 := ⟨v.x * c - v.y * s, v.x * s + v.y * c⟩

/-- `isOverlapping(pA, sA, pB, sB)` (line 25): strict AABB overlap on both
axes (the JS `&` of two comparison booleans is boolean conjunction). -/
def isOverlapping (pA sA pB sB : Vec2) : Bool :=
  decide (jsAbs (pA.x - pB.x) * 2 < sA.x + sB.x) &&
  decide (jsAbs (pA.y - pB.y) * 2 < sA.y + sB.y)

/-- The global `const gravity = -.01` (index.js line 206). -/
def gravityConst : ℚ := -1 / 100

/-- `const maxObjectSpeed = 1` (index.js line 697). -/
def maxObjectSpeed : ℚ := 1

---------------------------------------------------------------------------
-- Tile collision grid

/-- The tile-collision state: `tileCollisionSize` (width, height) and the
flat `tileCollision` array (row-major, index `y * width + x`). -/
structure TileGrid where
  sizeX : ℕ
  sizeY : ℕ
  data : List ℤ
deriving DecidableEq, Repr

/-- Reading a JS array at an arbitrary integer index: out-of-range reads
give `undefined`, which every use site (`tileData && ...`, `tileData > 0`)
treats exactly like the empty code `0`. -/
def jsArrayGet (l : List ℤ) (i : ℤ) : ℤ :=
  if 0 ≤ i ∧ i < (l.length : ℤ) then l.getD i.toNat 0 else 0

/-- Writing a JS array at an in-range integer index (the only writes the
modelled code performs are guarded by `arrayCheck`, hence in range). -/
def jsArraySet (l : List ℤ) (i : ℤ) (v : ℤ) : List ℤ :=
  if 0 ≤ i ∧ i < (l.length : ℤ) then l.set i.toNat v else l

/-- `Vector2.arrayCheck(arraySize)` (line 74): bounds test on the raw
(float) coordinates, `x >= 0 && y >= 0 && x < sizeX && y < sizeY`. -/
def arrayCheck (pos : Vec2) (w h : ℕ) : Bool :=
  decide (0 ≤ pos.x) && decide (0 ≤ pos.y) &&
  decide (pos.x < (w : ℚ)) && decide (pos.y < (h : ℚ))

/-- The flat index `(pos.y|0)*tileCollisionSize.x + pos.x | 0` used by both
`setTileCollisionData` and `getTileCollisionData` (lines 962-965); the final
`|0` truncates the float sum. -/
def tileFlatIndex (g : TileGrid) (pos : Vec2) : ℤ :=
  jsOr0 ((jsOr0 pos.y : ℚ) * (g.sizeX : ℚ) + pos.x)

/-- `getTileCollisionData(pos)` (line 964): bounds-checked read, `0` when
out of bounds. -/
def getTileCollisionData (g : TileGrid) (pos : Vec2) : ℤ :=
  if arrayCheck pos g.sizeX g.sizeY then jsArrayGet g.data (tileFlatIndex g pos) else 0

/-- `setTileCollisionData(pos, data)` (line 962): bounds-checked write,
no-op when out of bounds. -/
def setTileCollisionData (g : TileGrid) (pos : Vec2) (d : ℤ) : TileGrid :=
  if arrayCheck pos g.sizeX g.sizeY then
    { g with data := jsArraySet g.data (tileFlatIndex g pos) d }
  else g

/-- The inclusive integer range `[a, b]` scanned by the nested loops of
`tileCollisionTest`. -/
def intRange (a b : ℤ) : List ℤ := (List.range (b + 1 - a).toNat).map fun i => a + i

/-- `tileCollisionTest(pos, size, object)` (lines 967-981).  The AABB corner
cells are truncated with `|0`; each scanned cell is read at flat index
`y * sizeX + x` with **no** per-axis bounds check (unlike
`getTileCollisionData`).  The optional `filt` is the colliding object's
`collideWithTile` predicate; with no object any nonzero code collides. -/
def tileCollisionTest (g : TileGrid) (pos size : Vec2) (filt : Option (ℤ → Vec2 → Bool)) : Bool :=
  let minX := jsOr0 (pos.x - size.x * (1 / 2))
  let minY := jsOr0 (pos.y - size.y * (1 / 2))
  let maxX := jsOr0 (pos.x + size.x * (1 / 2))
  let maxY := jsOr0 (pos.y + size.y * (1 / 2))
  (intRange minY maxY).any fun y => (intRange minX maxX).any fun x =>
    let tileData := jsArrayGet g.data (y * (g.sizeX : ℤ) + x)
    decide (tileData ≠ 0) &&
      (match filt with
       | some f => f tileData ⟨(x : ℚ), (y : ℚ)⟩
       | none => true)

/-- The 4×4 grid whose only solid cell is (0, 1) (flat index 4), used to
exhibit the row-aliasing read of `tileCollisionTest`. -/
def gridC2 : TileGrid := ⟨4, 4, [0, 0, 0, 0, 1, 0, 0, 0, 0, 0, 0, 0, 0, 0, 0, 0]⟩

/-- A fully solid 2×2 grid used as the witness grid for the out-of-range
region scan. -/
def gridC2w : TileGrid := ⟨2, 2, [1, 1, 1, 1]⟩

/-- A 3×2 grid whose only solid cell is (1, 0). -/
def gridC5 : TileGrid := ⟨3, 2, [0, 1, 0, 0, 0, 0]⟩

/-- A 6×1 grid whose only solid cell is (3, 0), with code 1. -/
def gridC7 : TileGrid := ⟨6, 1, [0, 0, 0, 1, 0, 0]⟩

/-- A 1×6 grid whose only solid cell is (0, 3), with code 1 (the column
counterpart of `gridC7`). -/
def gridC5c : TileGrid := ⟨1, 6, [0, 0, 0, 1, 0, 0]⟩

---------------------------------------------------------------------------
-- Tile raycast (lines 985-1012)

/-- Acceptance test at a visited cell of `tileCollisionRaycast`:
`tileData && (object ? object.collideWithTileRaycast(tileData, pos) : tileData > 0)`. -/
def rcAccept (g : TileGrid) (filt : Option (ℤ → Vec2 → Bool)) (x y : ℤ) : Bool :=
  let tileData := getTileCollisionData g ⟨(x : ℚ), (y : ℚ)⟩
  decide (tileData ≠ 0) &&
    (match filt with
     | some f => f tileData ⟨(x : ℚ), (y : ℚ)⟩
     | none => decide (tileData > 0))

/-- The body of the raycast walk: visit (x, y); on accept return the cell
center; stop at the end cell; otherwise take a Bresenham step
(`e2 >= dy` advances x, `e2 <= dx` advances y, both may fire).  The JS
`for(;;)` loop is modelled with fuel; the caller supplies
`dx + |dy| + 1` fuel, enough for the walk's `max(dx, |dy|) + 1` visits. -/
def rcLoop (g : TileGrid) (filt : Option (ℤ → Vec2 → Bool)) (ex ey sx sy dx dy : ℤ) :
    ℕ → ℤ → ℤ → ℤ → Option Vec2
  | 0, _, _, _ => none
  | n + 1, x, y, e =>
    if rcAccept g filt x y then some ⟨(x : ℚ) + 1 / 2, (y : ℚ) + 1 / 2⟩
    else if x = ex ∧ y = ey then none
    else
      let e2 := 2 * e
      let x' := if e2 ≥ dy then x + sx else x
      let e' := if e2 ≥ dy then e + dy else e
      let y' := if e2 ≤ dx then y + sy else y
      let e'' := if e2 ≤ dx then e' + dx else e'
      rcLoop g filt ex ey sx sy dx dy n x' y' e''

/-- `tileCollisionRaycast(posStart, posEnd, object)` (lines 985-1012):
truncate both endpoints with `int()`, then walk the Bresenham line;
`none` models the JS `undefined` (no hit). -/
def tileCollisionRaycast (g : TileGrid) (posStart posEnd : Vec2)
    (filt : Option (ℤ → Vec2 → Bool)) : Option Vec2 :=
  let x0 := jsOr0 posStart.x
  let y0 := jsOr0 posStart.y
  let x1 := jsOr0 posEnd.x
  let y1 := jsOr0 posEnd.y
  let dx := intAbs (x1 - x0)
  let dy := -intAbs (y1 - y0)
  let sx := intSign (x1 - x0)
  let sy := intSign (y1 - y0)
  rcLoop g filt x1 y1 sx sy dx dy (dx - dy).toNat.succ x0 y0 (dx + dy)

/-- The cells the raycast walk would visit, in order, ignoring collisions:
same step rule and fuel as `rcLoop`, ending at the end cell. -/
def rcVisits (ex ey sx sy dx dy : ℤ) : ℕ → ℤ → ℤ → ℤ → List (ℤ × ℤ)
  | 0, _, _, _ => []
  | n + 1, x, y, e =>
    (x, y) ::
      (if x = ex ∧ y = ey then []
       else
         let e2 := 2 * e
         let x' := if e2 ≥ dy then x + sx else x
         let e' := if e2 ≥ dy then e + dy else e
         let y' := if e2 ≤ dx then y + sy else y
         let e'' := if e2 ≤ dx then e' + dx else e'
         rcVisits ex ey sx sy dx dy n x' y' e'')

/-- The visit list of a full raycast call (same truncation and fuel as
`tileCollisionRaycast`). -/
def raycastVisits (posStart posEnd : Vec2) : List (ℤ × ℤ) :=
  let x0 := jsOr0 posStart.x
  let y0 := jsOr0 posStart.y
  let x1 := jsOr0 posEnd.x
  let y1 := jsOr0 posEnd.y
  let dx := intAbs (x1 - x0)
  let dy := -intAbs (y1 - y0)
  let sx := intSign (x1 - x0)
  let sy := intSign (y1 - y0)
  rcVisits x1 y1 sx sy dx dy (dx - dy).toNat.succ x0 y0 (dx + dy)

---------------------------------------------------------------------------
-- EngineObject (lines 689-930)

/-- The mutable state of an `EngineObject` consulted by `update()`.
`parent` is an id into the world's object map (JS object references are
modelled by ids); `ground` models `groundObject`, whose JS value is either
falsy (`none`), the boolean `true` set by tile collision (`some none`), or a
reference to the supporting object (`some (some id)`).  The polymorphic
hooks keep their base-class defaults: `collideWithObject` returns 1,
`collideWithTile` and `collideWithTileRaycast` return `data > 0`
(lines 888-890), so the veto branch of the object-collision loop never
skips a pair. -/
structure EngineObj where
  pos : Vec2
  size : Vec2
  velocity : Vec2
  angle : ℚ
  angleVelocity : ℚ
  mass : ℚ
  damping : ℚ
  angleDamping : ℚ
  elasticity : ℚ
  friction : ℚ
  gravityScale : ℚ
  parent : Option ℕ
  localPos : Vec2
  localAngle : ℚ
  mirror : Bool
  ground : Option (Option ℕ)
  isSolid : Bool
  collideSolidObjects : Bool
  collideTiles : Bool
  destroyed : Bool
deriving DecidableEq, Repr

/-- `getMirrorSign()` (line 894). -/
def getMirrorSign (o : EngineObj) : ℚ := if o.mirror then -1 else 1

/-- The base-class `collideWithTile(data, pos)` hook (line 888):
`data > 0`. -/
def defaultCollideWithTile : ℤ → Vec2 → Bool := fun d _ => decide (d > 0)

/-- Uninterpreted environment for the JS library functions the physics
touches: `Math.sqrt` (via `Vector2.length`), `Math.cos`/`Math.sin` (via
`Vector2.rotate`), and the `randVector` result consumed by the push-apart
fallback, indexed by the loop iteration that draws it. -/
structure JsEnv where
  sqrtF : ℚ → ℚ
  cosF : ℚ → ℚ
  sinF : ℚ → ℚ
  rnd : ℕ → Vec2

/-- `const epsilon = 1e-3` of the object-collision loop (line 760). -/
def collideEpsilon : ℚ := 1 / 1000

/-- One iteration of the object-collision loop of `EngineObject.update`
(lines 761-831), acting on `this` (named `a`, with `oldPos` its
pre-integration position) and one entry `o` of `engineCollideObjects`.
`isSelf` is the reference-identity test `o == this`; `rnd` is the
`randVector(.001)` value drawn if the push-apart fallback needs one.
Returns the updated `(this, o)` pair; every `continue` path returns the
pair unchanged. -/
def objectCollideBody (env : JsEnv) (i oid : ℕ) (oldPos : Vec2) (wasMovingDown : Bool)
    (isSelf : Bool) (a o : EngineObj) : EngineObj × EngineObj :=
  if (!a.isSolid && !o.isSolid) || o.destroyed || !(o.parent = none) then (a, o)
  else if !isOverlapping a.pos a.size o.pos o.size || isSelf then (a, o)
  else if isOverlapping oldPos a.size o.pos o.size then
    -- already touching: push apart (lines 776-788)
    let deltaPos := vecSub oldPos o.pos
    let length := env.sqrtF (deltaPos.x ^ 2 + deltaPos.y ^ 2)
    let pushAwayAccel : ℚ := 1 / 1000
    let velocity := if length < 1 / 100 then env.rnd i else vecScale deltaPos (pushAwayAccel / length)
    ( { a with velocity := vecAdd a.velocity velocity },
      if o.mass ≠ 0 then { o with velocity := vecSub o.velocity velocity } else o )
  else
    -- regular collision resolution (lines 792-828)
    let sx := a.size.x + o.size.x
    let sy := a.size.y + o.size.y
    let smallStepUp := decide ((oldPos.y - o.pos.y) * 2 > sy + gravityConst)
    let isBlockedX := decide (jsAbs (oldPos.y - o.pos.y) * 2 < sy)
    let isBlockedY := decide (jsAbs (oldPos.x - o.pos.x) * 2 < sx)
    let (a1, o1) :=
      if smallStepUp || isBlockedY || !isBlockedX then
        -- resolve y collision
        let aP := { a with pos := { a.pos with
          y := o.pos.y + (sy * (1 / 2) + collideEpsilon) * jsSign (oldPos.y - o.pos.y) } }
        if (!(o.ground = none) && wasMovingDown) || o.mass = 0 then
          let aG := if wasMovingDown then { aP with ground := some (some oid) } else aP
          ({ aG with velocity := { aG.velocity with y := aG.velocity.y * (-aG.elasticity) } }, o)
        else if o.mass ≠ 0 then
          let avg := (aP.mass * aP.velocity.y + o.mass * o.velocity.y) / (aP.mass + o.mass)
          ( { aP with velocity := { aP.velocity with y := avg } },
            { o with velocity := { o.velocity with y := avg } } )
        else (aP, o)
      else (a, o)
    if !smallStepUp && (isBlockedX || !isBlockedY) then
      -- resolve x collision
      let aP := { a1 with pos := { a1.pos with
        x := o1.pos.x + (sx * (1 / 2) + collideEpsilon) * jsSign (oldPos.x - o.pos.x) } }
      if o1.mass ≠ 0 then
        let avg := (aP.mass * aP.velocity.x + o1.mass * o1.velocity.x) / (aP.mass + o1.mass)
        ( { aP with velocity := { aP.velocity with x := avg } },
          { o1 with velocity := { o1.velocity with x := avg } } )
      else ({ aP with velocity := { aP.velocity with x := aP.velocity.x * (-aP.elasticity) } }, o1)
    else (a1, o1)

/-- The world state the physics update runs in: the object heap (ids to
objects), the `engineCollideObjects` registry as a list of ids, and the
tile-collision grid. -/
structure PhysWorld where
  objs : ℕ → EngineObj
  collideIds : List ℕ
  grid : TileGrid

/-- Heap update at one id. -/
def setObj (f : ℕ → EngineObj) (i : ℕ) (o : EngineObj) : ℕ → EngineObj :=
  fun j => if j = i then o else f j

/-- `EngineObject.update()` (lines 721-870) for the object `selfId`.
Stage order follows the source: parented early-return; speed clamp;
integration (gravity scaled by `gravityScale` is added to the damped
vertical velocity for every root object, before the `!this.mass`
collision early-out); ground friction; object-object collision loop over
`engineCollideObjects` (each iteration passes its index to `env.rnd`, and
`this.groundObject = o` stores the other id); tile collision with the
base-class `collideWithTile` filter. -/
def jsUpdate (env : JsEnv) (w : PhysWorld) (selfId : ℕ) : PhysWorld :=
  let a := w.objs selfId
  match a.parent with
  | some pid =>
    -- copy parent pos/angle (lines 723-728)
    let par := w.objs pid
    let ms := getMirrorSign a
    let pos' := vecAdd (vecRotate (vecMul a.localPos ⟨ms, 1⟩)
      (env.cosF (-par.angle)) (env.sinF (-par.angle))) par.pos
    let a' := { a with pos := pos', angle := ms * a.localAngle + par.angle }
    { w with objs := setObj w.objs selfId a' }
  | none =>
    -- limit max speed (lines 732-733)
    let a := { a with velocity :=
      ⟨jsClamp a.velocity.x maxObjectSpeed (-maxObjectSpeed),
       jsClamp a.velocity.y maxObjectSpeed (-maxObjectSpeed)⟩ }
    -- apply physics (lines 736-740)
    let oldPos := a.pos
    let vx := a.damping * a.velocity.x
    let vy := a.damping * a.velocity.y + gravityConst * a.gravityScale
    let av := a.angleVelocity * a.angleDamping
    let a := { a with
               velocity := ⟨vx, vy⟩
               pos := ⟨a.pos.x + vx, a.pos.y + vy⟩
               angleVelocity := av
               angle := a.angle + av }
    if a.mass = 0 then
      -- do not update collision for fixed objects (line 746)
      { w with objs := setObj w.objs selfId a }
    else
      let wasMovingDown := decide (a.velocity.y < 0)
      -- ground friction (lines 750-756)
      let a :=
        match a.ground with
        | none => a
        | some g =>
          let groundSpeed := match g with
                             | some gid => (w.objs gid).velocity.x
                             | none => 0
          let v' := { a.velocity with x := groundSpeed + (a.velocity.x - groundSpeed) * a.friction }
          { a with velocity := v', ground := none }
      -- object collisions (lines 758-832)
      let step := fun (p : EngineObj × (ℕ → EngineObj)) (io : ℕ × ℕ) =>
        let r := objectCollideBody env io.1 io.2 oldPos wasMovingDown
          (decide (io.2 = selfId)) p.1 (p.2 io.2)
        (r.1, setObj p.2 io.2 r.2)
      let ao :=
        if a.collideSolidObjects then (w.collideIds.enum).foldl step (a, w.objs)
        else (a, w.objs)
      let a := ao.1
      let objs := ao.2
      -- tile collisions (lines 833-864)
      let a :=
        if a.collideTiles then
          if tileCollisionTest w.grid a.pos a.size (some defaultCollideWithTile) then
            if !tileCollisionTest w.grid oldPos a.size (some defaultCollideWithTile) then
              let isBlockedY :=
                tileCollisionTest w.grid ⟨oldPos.x, a.pos.y⟩ a.size (some defaultCollideWithTile)
              let isBlockedX :=
                tileCollisionTest w.grid ⟨a.pos.x, oldPos.y⟩ a.size (some defaultCollideWithTile)
              let a1 :=
                if isBlockedY || !isBlockedX then
                  let g' := if wasMovingDown then some (none : Option ℕ) else none
                  let p' := { a.pos with y := oldPos.y }
                  let v' := { a.velocity with y := a.velocity.y * (-a.elasticity) }
                  { a with ground := g', pos := p', velocity := v' }
                else a
              if isBlockedX || !isBlockedY then
                let p' := { a1.pos with x := oldPos.x }
                let v' := { a1.velocity with x := a1.velocity.x * (-a1.elasticity) }
                { a1 with pos := p', velocity := v' }
              else a1
            else a
          else a
        else a
      { w with objs := setObj objs selfId a }

---------------------------------------------------------------------------
-- Object hierarchy and scheduler (lines 349-366, 876-909)

/-- The fields of an `EngineObject` that `addChild`, `removeChild`,
`destroy` and the scheduler traversal consult: the parent back-reference,
the owned child list, and the `destroyed` flag.  `mark` stands in for the
rest of the object's mutable state (position, velocity, ...), which those
operations never touch; the scheduler scenario's update behaviour uses it
to record that the object's `update()` ran. -/
structure HNode where
  parent : Option ℕ
  children : List ℕ
  destroyed : Bool
  mark : Bool
deriving DecidableEq, Repr

/-- The object heap for the hierarchy model: ids to nodes. -/
abbrev HState := ℕ → HNode

/-- Heap update at one id. -/
def setNode (s : HState) (i : ℕ) (n : HNode) : HState := fun j => if j = i then n else s j

/-- `addChild(child)` of `this = p` (lines 896-903): push `c` onto
`p.children`, then set `c.parent = p` (the `localPos`/`localAngle`
assignments touch fields outside this model). -/
def hAddChild (s : HState) (p c : ℕ) : HState :=
  let s1 := setNode s p { s p with children := (s p).children ++ [c] }
  setNode s1 c { s1 c with parent := some p }

/-- `this.children.splice(this.children.indexOf(child), 1)`: removes the
first occurrence of `c`; when `c` is absent, `indexOf` gives `-1` and
`splice(-1, 1)` removes the last element. -/
def jsSplice (l : List ℕ) (c : ℕ) : List ℕ := if c ∈ l then l.erase c else l.dropLast

/-- `removeChild(child)` of `this = p` (lines 904-909): splice `c` out of
`p.children`, then clear `c.parent`. -/
def hRemoveChild (s : HState) (p c : ℕ) : HState :=
  let s1 := setNode s p { s p with children := jsSplice (s p).children c }
  setNode s1 c { s1 c with parent := none }

/-- `destroy()` of `e` (lines 876-886): return if already destroyed; set
the flag; detach from the parent via `removeChild`; then for each owned
child, clear its parent directly (`child.parent = 0` is evaluated as the
call argument) and destroy it recursively.  The JS recursion is modelled
with fuel; any fuel at least the number of live entities reproduces the
source, and every theorem below holds for every fuel. -/
def hDestroy : ℕ → ℕ → HState → HState
  | 0, _, s => s
  | n + 1, e, s =>
    if (s e).destroyed then s
    else
      let s1 := setNode s e { s e with destroyed := true }
      let s2 := match (s1 e).parent with
                | some p => hRemoveChild s1 p e
                | none => s1
      ((s2 e).children).foldl (fun acc c => hDestroy n c (setNode acc c { acc c with parent := none })) s2

/-- A call into the hierarchy API. -/
inductive HOp where
  | add (p c : ℕ)
  | remove (p c : ℕ)
  | destroy (e fuel : ℕ)
deriving DecidableEq, Repr

/-- Execute one hierarchy call. -/
def applyHOp (s : HState) : HOp → HState
  | .add p c => hAddChild s p c
  | .remove p c => hRemoveChild s p c
  | .destroy e fuel => hDestroy fuel e s

/-- Execute a call sequence. -/
def applyHOps (s : HState) (ops : List HOp) : HState := ops.foldl applyHOp s

/-- The documented precondition of a call (the `ASSERT`s of lines 898 and
906; `destroy` asserts nothing). -/
def validHOp (s : HState) : HOp → Prop
  | .add p c => (s c).parent = none ∧ c ∉ (s p).children
  | .remove p c => (s c).parent = some p ∧ c ∈ (s p).children
  | .destroy _ _ => True

/-- A call sequence each of whose calls meets its precondition in the
state it runs in. -/
def validHOps : HState → List HOp → Prop
  | _, [] => True
  | s, op :: rest => validHOp s op ∧ validHOps (applyHOp s op) rest

/-- The hierarchy invariant the engine maintains: child lists are
duplicate-free; an entity listed as a child of a live parent points back at
it; and a parent link is always mirrored by child-list membership. -/
def hConsistent (s : HState) : Prop :=
  (∀ p, ((s p).children).Nodup) ∧
  (∀ p c, c ∈ (s p).children → (s p).destroyed = true ∨ (s c).parent = some p) ∧
  (∀ c p, (s c).parent = some p → c ∈ (s p).children)

/-- A state with two live, unrelated entities (ids 0 and 1). -/
def hInit : HState := fun _ => ⟨none, [], false, false⟩

/-- `addChild(1)` on 0, then `destroy()` of 0. -/
def hCex : HState := applyHOps hInit [HOp.add 0 1, HOp.destroy 0 2]

---------------------------------------------------------------------------
-- Scheduler: engineUpdateObjects (lines 349-366)

/-- The per-tick scheduler state: the object heap plus the two registries,
`engineObjects` and `engineCollideObjects`, as id lists.  An update
behaviour (`upd`) mutates the heap only: in the modelled engine an
object's `update()` sets fields and `destroy` flags, while registry
membership changes only at construction / `setCollision`, outside one
object's update. -/
structure SchedState where
  nodes : HState
  objects : List ℕ
  collideObjects : List ℕ

/-- The recursive `updateObject` closure (lines 352-360): skip an entity
already flagged destroyed at the moment of its visit; otherwise run its
update behaviour, then recurse into its (possibly just-mutated) child
list.  Fuel bounds the JS recursion depth; every theorem below holds for
every fuel. -/
def updateObjectFuel (upd : ℕ → HState → HState) : ℕ → ℕ → HState → HState
  | 0, _, s => s
  | n + 1, o, s =>
    if (s o).destroyed then s
    else
      let s1 := upd o s
      ((s1 o).children).foldl (fun acc c => updateObjectFuel upd n c acc) s1

/-- `engineUpdateObjects()` (lines 349-366): update every root entity
(`o.parent || updateObject(o)`) in registry order, then compact both
registries with `filter(o => !o.destroyed)`. -/
def engineUpdateObjects (upd : ℕ → HState → HState) (fuel : ℕ) (st : SchedState) : SchedState :=
  let nodes' := st.objects.foldl
    (fun acc o => if (acc o).parent = none then updateObjectFuel upd fuel o acc else acc)
    st.nodes
  { nodes := nodes'
    objects := st.objects.filter fun o => !(nodes' o).destroyed
    collideObjects := st.collideObjects.filter fun o => !(nodes' o).destroyed }

/-- A scheduler scenario: the update behaviour marks its object; the
update of object 0 additionally destroys object 1 mid-traversal. -/
def schedUpd : ℕ → HState → HState := fun i s =>
  let s1 := setNode s i { s i with mark := true }
  if i = 0 then hDestroy 4 1 s1 else s1

/-- Three live root objects 0, 1, 2; 1 and 2 are also collidable. -/
def schedSt : SchedState := ⟨hInit, [0, 1, 2], [1, 2]⟩

---------------------------------------------------------------------------
-- Concrete fixtures for the physics claims

/-- A trivial environment for concrete runs whose path never consults the
uninterpreted functions. -/
def envTriv : JsEnv := ⟨fun _ => 0, fun _ => 1, fun _ => 0, fun _ => ⟨0, 0⟩⟩

/-- A fixed (mass 0) root object with the constructor defaults for
damping/elasticity/friction/gravityScale (lines 704-714). -/
def objC1 : EngineObj where
  pos := ⟨0, 0⟩
  size := ⟨999 / 1000, 999 / 1000⟩
  velocity := ⟨0, 0⟩
  angle := 0
  angleVelocity := 0
  mass := 0
  damping := 99 / 100
  angleDamping := 99 / 100
  elasticity := 0
  friction := 8 / 10
  gravityScale := 1
  parent := none
  localPos := ⟨0, 0⟩
  localAngle := 0
  mirror := false
  ground := none
  isSolid := false
  collideSolidObjects := false
  collideTiles := true
  destroyed := false

/-- A world holding only the fixed object. -/
def worldC1 : PhysWorld := ⟨fun _ => objC1, [], ⟨0, 0, []⟩⟩

/-- Head-on collision fixture, moving entity: mass 1, at (0.1, 0) after
integrating from oldPos (-0.9, 0) with velocity (+1, 0). -/
def objC3a : EngineObj :=
  { objC1 with pos := ⟨1 / 10, 0⟩, size := ⟨1, 1⟩, velocity := ⟨1, 0⟩, mass := 1,
               isSolid := true, collideSolidObjects := true }

/-- Head-on collision fixture, other entity: mass 1 at (0.5, 0) moving
(-1, 0). -/
def objC3b : EngineObj :=
  { objC1 with pos := ⟨1 / 2, 0⟩, size := ⟨1, 1⟩, velocity := ⟨-1, 0⟩, mass := 1,
               isSolid := true, collideSolidObjects := true }

/-- The pre-integration position of the moving entity in the head-on
fixture. -/
def oldPosC3 : Vec2 := ⟨-9 / 10, 0⟩

/-- Parent fixture for the attached-child claim. -/
def objC8p : EngineObj := { objC1 with pos := ⟨3, 4⟩, angle := 1 / 2, mass := 1 }

/-- Child fixture: attached to id 1 with a local offset. -/
def objC8c : EngineObj :=
  { objC1 with parent := some 1, localPos := ⟨2, 5⟩, localAngle := 1 / 4,
               velocity := ⟨7, 8⟩, angleVelocity := 3 }

/-- World with the child at id 0 and the parent at id 1. -/
def worldC8 : PhysWorld := ⟨fun i => if i = 1 then objC8p else objC8c, [], ⟨0, 0, []⟩⟩

/-- What `destroy` can do to parent links and destroyed flags: a parent
link is either kept or cleared, and a set destroyed flag stays set. -/
def hChg (s t : HState) : Prop :=
  ∀ i, ((t i).parent = (s i).parent ∨ (t i).parent = none) ∧
       ((s i).destroyed = true → (t i).destroyed = true)

---------------------------------------------------------------------------
-- Theorems

lemma arrayCheck_eq_false {pos : Vec2} {w ht : ℕ}
    (h : pos.x < 0 ∨ pos.y < 0 ∨ (w : ℚ) ≤ pos.x ∨ (ht : ℚ) ≤ pos.y) :
    arrayCheck pos w ht = false := by
  apply Bool.eq_false_iff.mpr
  simp only [arrayCheck, Bool.and_eq_true, decide_eq_true_eq, ne_eq]
  rintro ⟨⟨⟨h1, h2⟩, h3⟩, h4⟩
  rcases h with h | h | h | h <;> linarith

/-- C6: a read at a coordinate outside `[0,width) x [0,height)` returns 0,
a write there leaves the whole grid unchanged, and therefore a set
followed by a get at such a coordinate never shows the written value. -/
theorem tile_oob_get_set (g : TileGrid) (pos : Vec2) (d : ℤ)
    (h : pos.x < 0 ∨ pos.y < 0 ∨ (g.sizeX : ℚ) ≤ pos.x ∨ (g.sizeY : ℚ) ≤ pos.y) :
    getTileCollisionData g pos = 0 ∧ setTileCollisionData g pos d = g ∧
    getTileCollisionData (setTileCollisionData g pos d) pos = 0 := by
  have hc := arrayCheck_eq_false h
  have hset : setTileCollisionData g pos d = g := by simp [setTileCollisionData, hc]
  exact ⟨by simp [getTileCollisionData, hc], hset, by simp [getTileCollisionData, hset, hc]⟩

/-- C6 witness: coordinate (5, 0) lies right of the 2-wide witness grid;
the getter returns 0, the setter is a no-op, and the round trip reads 0. -/
theorem tile_oob_get_set_witness :
    ((gridC2w.sizeX : ℚ) ≤ (5 : ℚ)) ∧
    (getTileCollisionData gridC2w ⟨5, 0⟩ = 0 ∧
     setTileCollisionData gridC2w ⟨5, 0⟩ 7 = gridC2w ∧
     getTileCollisionData (setTileCollisionData gridC2w ⟨5, 0⟩ 7) ⟨5, 0⟩ = 0) := by
  have hb : (gridC2w.sizeX : ℚ) ≤ (5 : ℚ) := by norm_num [gridC2w]
  exact ⟨hb, tile_oob_get_set gridC2w ⟨5, 0⟩ 7 (Or.inr (Or.inr (Or.inl hb)))⟩

/-- C2 counterexample: on the 4×4 grid whose only solid cell is (0, 1),
the region test centered at the out-of-bounds cell (4, 0) with zero
half-extent scans only that cell, yet reports a collision — the unchecked
flat read `0*4 + 4` aliases the in-bounds cell (0, 1) — while the
bounds-checked getter calls the same cell empty. -/
theorem regionCollides_oob_alias_cex :
    tileCollisionTest gridC2 ⟨4, 0⟩ ⟨0, 0⟩ none = true ∧
    getTileCollisionData gridC2 ⟨4, 0⟩ = 0 ∧ (gridC2.sizeX : ℚ) ≤ (4 : ℚ) := by
  refine ⟨?_, ?_, by norm_num [gridC2]⟩
  · norm_num [tileCollisionTest, intRange, jsArrayGet, jsOr0, jsTrunc, toInt32, gridC2,
      List.range_succ, List.any_cons]
    decide
  · norm_num [getTileCollisionData, arrayCheck, gridC2]

/-- C2 amended: the region scan performs no per-axis bounds check; what
holds instead is that scanned cells whose *flat* index `y*width + x` falls
outside the backing array read as empty, so a region all of whose scanned
flat indices are out of range never collides. -/
theorem regionCollides_flat_oob_empty (g : TileGrid) (pos size : Vec2)
    (filt : Option (ℤ → Vec2 → Bool))
    (h : ∀ y ∈ intRange (jsOr0 (pos.y - size.y * (1 / 2))) (jsOr0 (pos.y + size.y * (1 / 2))),
         ∀ x ∈ intRange (jsOr0 (pos.x - size.x * (1 / 2))) (jsOr0 (pos.x + size.x * (1 / 2))),
           y * (g.sizeX : ℤ) + x < 0 ∨ (g.data.length : ℤ) ≤ y * (g.sizeX : ℤ) + x) :
    tileCollisionTest g pos size filt = false := by
  apply Bool.eq_false_iff.mpr
  intro hT
  simp only [tileCollisionTest, List.any_eq_true] at hT
  obtain ⟨y, hy, x, hx, hpx⟩ := hT
  have hz : jsArrayGet g.data (y * (g.sizeX : ℤ) + x) = 0 := by
    unfold jsArrayGet
    rw [if_neg]
    rcases h y hy x hx with h' | h' <;> omega
  rw [hz] at hpx
  simp at hpx

/-- C2 amended witness: a region entirely below the 2×2 witness grid (all
scanned flat indices negative) reports no collision. -/
theorem regionCollides_flat_oob_empty_witness :
    tileCollisionTest gridC2w ⟨0, -5⟩ ⟨0, 0⟩ none = false := by
  apply regionCollides_flat_oob_empty
  have h1 : jsOr0 ((-5 : ℚ) - 0 * (1 / 2)) = -5 := by
    norm_num [jsOr0, jsTrunc, toInt32]
  have h2 : jsOr0 ((-5 : ℚ) + 0 * (1 / 2)) = -5 := by
    norm_num [jsOr0, jsTrunc, toInt32]
  have h3 : jsOr0 ((0 : ℚ) - 0 * (1 / 2)) = 0 := by
    norm_num [jsOr0, jsTrunc, toInt32]
  have h4 : jsOr0 ((0 : ℚ) + 0 * (1 / 2)) = 0 := by
    norm_num [jsOr0, jsTrunc, toInt32]
  simp only [h1, h2, h3, h4]
  intro y hy x hx
  simp [intRange, List.range_succ] at hy hx
  subst hy; subst hx
  left; norm_num [gridC2w]

lemma jsTrunc_intCast (z : ℤ) : jsTrunc (z : ℚ) = z := by
  unfold jsTrunc
  split
  · rw [show (-(z : ℚ)) = ((-z : ℤ) : ℚ) by push_cast; ring, Int.floor_intCast]
    omega
  · exact Int.floor_intCast z

lemma toInt32_eq_self {z : ℤ} (h1 : -2 ^ 31 ≤ z) (h2 : z < 2 ^ 31) : toInt32 z = z := by
  unfold toInt32
  omega

lemma jsOr0_intCast {z : ℤ} (h1 : -2 ^ 31 ≤ z) (h2 : z < 2 ^ 31) : jsOr0 (z : ℚ) = z := by
  rw [jsOr0, jsTrunc_intCast, toInt32_eq_self h1 h2]

lemma rcLoop_eq_find_visits (g : TileGrid) (filt : Option (ℤ → Vec2 → Bool))
    (ex ey sx sy dx dy : ℤ) :
    ∀ (n : ℕ) (x y e : ℤ),
      rcLoop g filt ex ey sx sy dx dy n x y e =
        ((rcVisits ex ey sx sy dx dy n x y e).find? fun c => rcAccept g filt c.1 c.2).map
          fun c => (⟨(c.1 : ℚ) + 1 / 2, (c.2 : ℚ) + 1 / 2⟩ : Vec2) := by
  intro n
  induction n with
  | zero => intro x y e; simp [rcLoop, rcVisits]
  | succ n ih =>
    intro x y e
    rw [rcLoop, rcVisits]
    cases ha : rcAccept g filt x y with
    | true =>
      rw [List.find?_cons_of_pos _ (by simpa using ha)]
      simp [ha]
    | false =>
      rw [List.find?_cons_of_neg _ (by simpa using ha)]
      by_cases hend : x = ex ∧ y = ey
      · simp [ha, hend]
      · simp only [ha, Bool.false_eq_true, if_false, if_neg hend]
        exact ih _ _ _

lemma rcLoop_row_first (g : TileGrid) (filt : Option (ℤ → Vec2 → Bool))
    (ex c y dx sy : ℤ) (hdx : 0 < dx) :
    ∀ (n : ℕ) (x : ℤ), x ≤ c → c ≤ ex → (c - x).toNat < n →
      (∀ t, x ≤ t → t < c → rcAccept g filt t y = false) →
      rcAccept g filt c y = true →
      rcLoop g filt ex y 1 sy dx 0 n x y dx =
        some ⟨(c : ℚ) + 1 / 2, (y : ℚ) + 1 / 2⟩ := by
  intro n
  induction n with
  | zero => intro x _ _ hfuel _ _; omega
  | succ n ih =>
    intro x hxc hcex hfuel hmiss hacc
    rw [rcLoop]
    rcases eq_or_lt_of_le hxc with heq | hlt
    · subst heq
      rw [if_pos hacc]
    · rw [if_neg (by simp [hmiss x le_rfl hlt])]
      rw [if_neg (by rintro ⟨hx, -⟩; omega)]
      simp only [ge_iff_le, if_pos (by positivity : (0 : ℤ) ≤ 2 * dx),
        if_neg (by omega : ¬2 * dx ≤ dx)]
      rw [show dx + 0 = dx by ring]
      exact ih (x + 1) (by omega) hcex (by omega) (fun t ht1 ht2 => hmiss t (by omega) ht2) hacc

lemma rcLoop_row_hit_pos (g : TileGrid) (filt : Option (ℤ → Vec2 → Bool))
    (ex c y dx sy : ℤ) (hdx : 0 < dx) :
    ∀ (n : ℕ) (x : ℤ), x ≤ c → c ≤ ex → (c - x).toNat < n →
      rcAccept g filt c y = true →
      (rcLoop g filt ex y 1 sy dx 0 n x y dx).isSome = true := by
  intro n
  induction n with
  | zero => intro x _ _ hfuel _; omega
  | succ n ih =>
    intro x hxc hcex hfuel hacc
    rw [rcLoop]
    cases ha : rcAccept g filt x y with
    | true => simp
    | false =>
      have hlt : x < c := by
        rcases eq_or_lt_of_le hxc with heq | hlt
        · subst heq; rw [ha] at hacc; cases hacc
        · exact hlt
      rw [if_neg (by simp [ha])]
      rw [if_neg (by rintro ⟨hx, -⟩; omega)]
      simp only [ge_iff_le, if_pos (by positivity : (0 : ℤ) ≤ 2 * dx),
        if_neg (by omega : ¬2 * dx ≤ dx)]
      rw [show dx + 0 = dx by ring]
      exact ih (x + 1) (by omega) hcex (by omega) hacc

lemma rcLoop_row_hit_neg (g : TileGrid) (filt : Option (ℤ → Vec2 → Bool))
    (ex c y dx sy : ℤ) (hdx : 0 < dx) :
    ∀ (n : ℕ) (x : ℤ), c ≤ x → ex ≤ c → (x - c).toNat < n →
      rcAccept g filt c y = true →
      (rcLoop g filt ex y (-1) sy dx 0 n x y dx).isSome = true := by
  intro n
  induction n with
  | zero => intro x _ _ hfuel _; omega
  | succ n ih =>
    intro x hxc hcex hfuel hacc
    rw [rcLoop]
    cases ha : rcAccept g filt x y with
    | true => simp
    | false =>
      have hlt : c < x := by
        rcases eq_or_lt_of_le hxc with heq | hlt
        · subst heq; rw [ha] at hacc; cases hacc
        · exact hlt
      rw [if_neg (by simp [ha])]
      rw [if_neg (by rintro ⟨hx, -⟩; omega)]
      simp only [ge_iff_le, if_pos (by positivity : (0 : ℤ) ≤ 2 * dx),
        if_neg (by omega : ¬2 * dx ≤ dx)]
      rw [show dx + 0 = dx by ring]
      rw [show x + -1 = x - 1 by ring]
      exact ih (x - 1) (by omega) hcex (by omega) hacc

lemma rcLoop_col_hit_pos (g : TileGrid) (filt : Option (ℤ → Vec2 → Bool))
    (ex ey c x d sx : ℤ) (hd : d < 0) :
    ∀ (n : ℕ) (y : ℤ), y ≤ c → c ≤ ey → (c - y).toNat < n →
      rcAccept g filt x c = true →
      (rcLoop g filt ex ey sx 1 0 d n x y d).isSome = true := by
  intro n
  induction n with
  | zero => intro y _ _ hfuel _; omega
  | succ n ih =>
    intro y hyc hcey hfuel hacc
    rw [rcLoop]
    cases ha : rcAccept g filt x y with
    | true => simp
    | false =>
      have hlt : y < c := by
        rcases eq_or_lt_of_le hyc with heq | hlt
        · subst heq; rw [ha] at hacc; cases hacc
        · exact hlt
      rw [if_neg (by simp [ha])]
      rw [if_neg (by rintro ⟨-, hy⟩; omega)]
      simp only [ge_iff_le, if_neg (by omega : ¬d ≤ 2 * d),
        if_pos (by omega : 2 * d ≤ 0)]
      rw [show d + 0 = d by ring]
      exact ih (y + 1) (by omega) hcey (by omega) hacc

lemma rcLoop_col_hit_neg (g : TileGrid) (filt : Option (ℤ → Vec2 → Bool))
    (ex ey c x d sx : ℤ) (hd : d < 0) :
    ∀ (n : ℕ) (y : ℤ), c ≤ y → ey ≤ c → (y - c).toNat < n →
      rcAccept g filt x c = true →
      (rcLoop g filt ex ey sx (-1) 0 d n x y d).isSome = true := by
  intro n
  induction n with
  | zero => intro y _ _ hfuel _; omega
  | succ n ih =>
    intro y hyc hcey hfuel hacc
    rw [rcLoop]
    cases ha : rcAccept g filt x y with
    | true => simp
    | false =>
      have hlt : c < y := by
        rcases eq_or_lt_of_le hyc with heq | hlt
        · subst heq; rw [ha] at hacc; cases hacc
        · exact hlt
      rw [if_neg (by simp [ha])]
      rw [if_neg (by rintro ⟨-, hy⟩; omega)]
      simp only [ge_iff_le, if_neg (by omega : ¬d ≤ 2 * d),
        if_pos (by omega : 2 * d ≤ 0)]
      rw [show d + 0 = d by ring]
      rw [show y + -1 = y - 1 by ring]
      exact ih (y - 1) (by omega) hcey (by omega) hacc

/-- C7: the raycast returns the center of the first visited cell whose
code is nonzero and accepted (default filter: positive code), and no hit
when the walk reaches the end cell with no accepted cell — stated as:
every raycast equals the first accepted cell of its visit list, mapped to
the cell center; moreover on the 6×1 grid whose only solid cell is (3, 0),
the cast from (0,0) to (5,0) with no filter returns (3.5, 0.5). -/
theorem raycast_first_hit :
    (∀ (g : TileGrid) (posStart posEnd : Vec2) (filt : Option (ℤ → Vec2 → Bool)),
      tileCollisionRaycast g posStart posEnd filt =
        ((raycastVisits posStart posEnd).find? fun c => rcAccept g filt c.1 c.2).map
          fun c => (⟨(c.1 : ℚ) + 1 / 2, (c.2 : ℚ) + 1 / 2⟩ : Vec2)) ∧
    tileCollisionRaycast gridC7 ⟨0, 0⟩ ⟨5, 0⟩ none = some ⟨7 / 2, 1 / 2⟩ := by
  constructor
  · intro g posStart posEnd filt
    exact rcLoop_eq_find_visits g filt _ _ _ _ _ _ _ _ _ _
  · have h0 : jsOr0 (0 : ℚ) = 0 := by norm_num [jsOr0, jsTrunc, toInt32]
    have h5 : jsOr0 (5 : ℚ) = 5 := by norm_num [jsOr0, jsTrunc, toInt32]
    show tileCollisionRaycast gridC7 ⟨0, 0⟩ ⟨5, 0⟩ none = some ⟨7 / 2, 1 / 2⟩
    unfold tileCollisionRaycast
    simp only [h0, h5]
    norm_num [intAbs, intSign]
    have := rcLoop_row_first gridC7 none 5 3 0 5 1 (by norm_num) 6 0 (by norm_num)
      (by norm_num) (by norm_num)
      (by
        intro t ht1 ht2
        interval_cases t <;>
          norm_num [rcAccept, getTileCollisionData, arrayCheck, tileFlatIndex, jsArrayGet,
            jsOr0, jsTrunc, toInt32, gridC7] <;> decide)
      (by
        norm_num [rcAccept, getTileCollisionData, arrayCheck, tileFlatIndex, jsArrayGet,
          jsOr0, jsTrunc, toInt32, gridC7]
        decide)
    convert this using 2 <;> norm_num

/-- C5 counterexample: on the 3×2 grid whose only solid cell is (1, 0) —
a cell containing the segment point (6/5, 3/5) strictly between the
endpoints, on neither endpoint's cell — the raycast from (0,0) to (2,1)
reports no hit (its walk steps diagonally through (1,1)), while the
reverse raycast from (2,1) to (0,0) hits (1, 0). -/
theorem raycast_asymmetry_cex :
    tileCollisionRaycast gridC5 ⟨0, 0⟩ ⟨2, 1⟩ none = none ∧
    tileCollisionRaycast gridC5 ⟨2, 1⟩ ⟨0, 0⟩ none = some ⟨3 / 2, 1 / 2⟩ ∧
    gridC5.data = [0, 1, 0, 0, 0, 0] ∧
    jsTrunc (6 / 5 : ℚ) = 1 ∧ jsTrunc (3 / 5 : ℚ) = 0 := by
  have h0 : jsOr0 (0 : ℚ) = 0 := by norm_num [jsOr0, jsTrunc, toInt32]
  have h1 : jsOr0 (1 : ℚ) = 1 := by norm_num [jsOr0, jsTrunc, toInt32]
  have h2 : jsOr0 (2 : ℚ) = 2 := by norm_num [jsOr0, jsTrunc, toInt32]
  have ha00 : rcAccept gridC5 none 0 0 = false := by
    norm_num [rcAccept, getTileCollisionData, arrayCheck, tileFlatIndex, jsArrayGet,
      jsOr0, jsTrunc, toInt32, gridC5]
  have ha11 : rcAccept gridC5 none 1 1 = false := by
    norm_num [rcAccept, getTileCollisionData, arrayCheck, tileFlatIndex, jsArrayGet,
      jsOr0, jsTrunc, toInt32, gridC5] <;> decide
  have ha21 : rcAccept gridC5 none 2 1 = false := by
    norm_num [rcAccept, getTileCollisionData, arrayCheck, tileFlatIndex, jsArrayGet,
      jsOr0, jsTrunc, toInt32, gridC5] <;> decide
  have ha10 : rcAccept gridC5 none 1 0 = true := by
    norm_num [rcAccept, getTileCollisionData, arrayCheck, tileFlatIndex, jsArrayGet,
      jsOr0, jsTrunc, toInt32, gridC5] <;> decide
  refine ⟨?_, ?_, rfl, by norm_num [jsTrunc], by norm_num [jsTrunc]⟩
  · unfold tileCollisionRaycast
    simp only [h0, h1, h2]
    norm_num [intAbs, intSign]
    rw [rcLoop_eq_find_visits]
    rw [show Int.toNat 3 + 1 = 4 from rfl]
    rw [show rcVisits 2 1 1 1 2 (-1) 4 0 0 1 = [(0, 0), (1, 1), (2, 1)] from by decide]
    simp [List.find?, ha00, ha11, ha21]
  · unfold tileCollisionRaycast
    simp only [h0, h1, h2]
    norm_num [intAbs, intSign]
    rw [rcLoop_eq_find_visits]
    rw [show Int.toNat 3 + 1 = 4 from rfl]
    rw [show rcVisits 0 0 (-1) (-1) 2 (-1) 4 2 1 1 = [(2, 1), (1, 0), (0, 0)] from by decide]
    simp [List.find?, ha21, ha10]
    norm_num

/-- C5 amended: the two directions of the walk may visit different cells
(see the counterexample), but along a single grid row, and likewise along
a single grid column, the walk advances one cell at a time through the
cells between the endpoints, so a solid cell (positive code) strictly
between two same-row or same-column endpoints is hit by the raycast in
both directions. -/
theorem raycast_axis_both_hit :
    (∀ (g : TileGrid) (ax bx cx y : ℤ),
      (-2 ^ 31 < ax ∧ ax < 2 ^ 31 ∧ -2 ^ 31 < bx ∧ bx < 2 ^ 31 ∧ -2 ^ 31 < y ∧ y < 2 ^ 31) →
      ax < cx → cx < bx → 0 < getTileCollisionData g ⟨(cx : ℚ), (y : ℚ)⟩ →
      (tileCollisionRaycast g ⟨(ax : ℚ), (y : ℚ)⟩ ⟨(bx : ℚ), (y : ℚ)⟩ none).isSome = true ∧
      (tileCollisionRaycast g ⟨(bx : ℚ), (y : ℚ)⟩ ⟨(ax : ℚ), (y : ℚ)⟩ none).isSome = true) ∧
    (∀ (g : TileGrid) (ay yb cy x : ℤ),
      (-2 ^ 31 < ay ∧ ay < 2 ^ 31 ∧ -2 ^ 31 < yb ∧ yb < 2 ^ 31 ∧ -2 ^ 31 < x ∧ x < 2 ^ 31) →
      ay < cy → cy < yb → 0 < getTileCollisionData g ⟨(x : ℚ), (cy : ℚ)⟩ →
      (tileCollisionRaycast g ⟨(x : ℚ), (ay : ℚ)⟩ ⟨(x : ℚ), (yb : ℚ)⟩ none).isSome = true ∧
      (tileCollisionRaycast g ⟨(x : ℚ), (yb : ℚ)⟩ ⟨(x : ℚ), (ay : ℚ)⟩ none).isSome = true) := by
  constructor
  · intro g ax bx cx y hr h1 h2 hsolid
    obtain ⟨ha1, ha2, hb1, hb2, hy1, hy2⟩ := hr
    have hax : jsOr0 ((ax : ℚ)) = ax := jsOr0_intCast (by omega) (by omega)
    have hbx : jsOr0 ((bx : ℚ)) = bx := jsOr0_intCast (by omega) (by omega)
    have hy : jsOr0 ((y : ℚ)) = y := jsOr0_intCast (by omega) (by omega)
    have hacc : rcAccept g none cx y = true := by
      simp only [rcAccept, Bool.and_eq_true, decide_eq_true_eq]
      exact ⟨by omega, hsolid⟩
    have habs : intAbs (bx - ax) = bx - ax := by unfold intAbs; rw [if_neg (by omega)]
    have habs' : intAbs (ax - bx) = bx - ax := by unfold intAbs; rw [if_pos (by omega)]; ring
    have hsgn : intSign (bx - ax) = 1 := by unfold intSign; rw [if_neg (by omega)]
    have hsgn' : intSign (ax - bx) = -1 := by unfold intSign; rw [if_pos (by omega)]
    constructor
    · unfold tileCollisionRaycast
      simp only [hax, hbx, hy, sub_self, habs, hsgn]
      simp only [show intAbs 0 = 0 from rfl, show intSign 0 = 1 from rfl, neg_zero,
        add_zero, sub_zero]
      exact rcLoop_row_hit_pos g none bx cx y (bx - ax) 1 (by omega) _ ax (by omega)
        (by omega) (by omega) hacc
    · unfold tileCollisionRaycast
      simp only [hax, hbx, hy, sub_self, habs', hsgn']
      simp only [show intAbs 0 = 0 from rfl, show intSign 0 = 1 from rfl, neg_zero,
        add_zero, sub_zero]
      exact rcLoop_row_hit_neg g none ax cx y (bx - ax) 1 (by omega) _ bx (by omega)
        (by omega) (by omega) hacc
  · intro g ay yb cy x hr h1 h2 hsolid
    obtain ⟨ha1, ha2, hb1, hb2, hx1, hx2⟩ := hr
    have hay : jsOr0 ((ay : ℚ)) = ay := jsOr0_intCast (by omega) (by omega)
    have hby : jsOr0 ((yb : ℚ)) = yb := jsOr0_intCast (by omega) (by omega)
    have hx : jsOr0 ((x : ℚ)) = x := jsOr0_intCast (by omega) (by omega)
    have hacc : rcAccept g none x cy = true := by
      simp only [rcAccept, Bool.and_eq_true, decide_eq_true_eq]
      exact ⟨by omega, hsolid⟩
    have habs : intAbs (yb - ay) = yb - ay := by unfold intAbs; rw [if_neg (by omega)]
    have habs' : intAbs (ay - yb) = yb - ay := by unfold intAbs; rw [if_pos (by omega)]; ring
    have hsgn : intSign (yb - ay) = 1 := by unfold intSign; rw [if_neg (by omega)]
    have hsgn' : intSign (ay - yb) = -1 := by unfold intSign; rw [if_pos (by omega)]
    have hd : -(yb - ay) < 0 := by omega
    constructor
    · unfold tileCollisionRaycast
      simp only [hay, hby, hx, sub_self, habs, hsgn]
      simp only [show intAbs 0 = 0 from rfl, show intSign 0 = 1 from rfl,
        zero_sub, neg_neg, zero_add]
      exact rcLoop_col_hit_pos g none x yb cy x (-(yb - ay)) 1 hd _ ay (by omega)
        (by omega) (by omega) hacc
    · unfold tileCollisionRaycast
      simp only [hay, hby, hx, sub_self, habs', hsgn']
      simp only [show intAbs 0 = 0 from rfl, show intSign 0 = 1 from rfl,
        zero_sub, neg_neg, zero_add]
      exact rcLoop_col_hit_neg g none x ay cy x (-(yb - ay)) 1 hd _ yb (by omega)
        (by omega) (by omega) hacc

/-- C5 amended witness: on the 6×1 grid solid only at (3, 0), casts along
row 0 between x = 0 and x = 5 hit in both directions, and on the 1×6 grid
solid only at (0, 3), casts along column 0 between y = 0 and y = 5 hit in
both directions. -/
theorem raycast_axis_both_hit_witness :
    0 < getTileCollisionData gridC7 ⟨((3 : ℤ) : ℚ), ((0 : ℤ) : ℚ)⟩ ∧
    (tileCollisionRaycast gridC7 ⟨0, 0⟩ ⟨5, 0⟩ none).isSome = true ∧
    (tileCollisionRaycast gridC7 ⟨5, 0⟩ ⟨0, 0⟩ none).isSome = true ∧
    0 < getTileCollisionData gridC5c ⟨((0 : ℤ) : ℚ), ((3 : ℤ) : ℚ)⟩ ∧
    (tileCollisionRaycast gridC5c ⟨0, 0⟩ ⟨0, 5⟩ none).isSome = true ∧
    (tileCollisionRaycast gridC5c ⟨0, 5⟩ ⟨0, 0⟩ none).isSome = true := by
  have hs1 : 0 < getTileCollisionData gridC7 ⟨((3 : ℤ) : ℚ), ((0 : ℤ) : ℚ)⟩ := by
    norm_num [getTileCollisionData, arrayCheck, tileFlatIndex, jsArrayGet,
      jsOr0, jsTrunc, toInt32, gridC7] <;> decide
  have hs2 : 0 < getTileCollisionData gridC5c ⟨((0 : ℤ) : ℚ), ((3 : ℤ) : ℚ)⟩ := by
    norm_num [getTileCollisionData, arrayCheck, tileFlatIndex, jsArrayGet,
      jsOr0, jsTrunc, toInt32, gridC5c] <;> decide
  have h1 := raycast_axis_both_hit.1 gridC7 0 5 3 0 (by norm_num) (by norm_num)
    (by norm_num) hs1
  have h2 := raycast_axis_both_hit.2 gridC5c 0 5 3 0 (by norm_num) (by norm_num)
    (by norm_num) hs2
  refine ⟨hs1, ?_, ?_, hs2, ?_, ?_⟩
  · have := h1.1
    simpa using this
  · have := h1.2
    simpa using this
  · have := h2.1
    simpa using this
  · have := h2.2
    simpa using this

/-- C1 counterexample: the fixed object (mass 0, no parent, gravityScale 1,
velocity 0) does not keep `velocity = damping * velocity` across one
update — gravity is added to its vertical velocity (the `!this.mass`
early-out skips only collision resolution, not integration). -/
theorem massZero_gravity_cex :
    ((jsUpdate envTriv worldC1 0).objs 0).velocity ≠
      ⟨objC1.damping * objC1.velocity.x, objC1.damping * objC1.velocity.y⟩ ∧
    ((jsUpdate envTriv worldC1 0).objs 0).velocity.y = -1 / 100 := by
  have h : ((jsUpdate envTriv worldC1 0).objs 0).velocity = ⟨0, -1 / 100⟩ := by
    norm_num [jsUpdate, worldC1, objC1, setObj, jsClamp, maxObjectSpeed, gravityConst]
  rw [h]
  norm_num [objC1]

/-- C1 amended: for a root entity of mass 0, one update leaves collision
resolution aside but still integrates: the new velocity is the damped
(speed-clamped) old velocity with `gravity * gravityScale` added to the
vertical component; it is unchanged by gravity exactly when the entity's
gravityScale is 0. -/
theorem massZero_update_velocity (env : JsEnv) (w : PhysWorld) (idx : ℕ)
    (hp : (w.objs idx).parent = none) (hm : (w.objs idx).mass = 0) :
    ((jsUpdate env w idx).objs idx).velocity.x
      = (w.objs idx).damping * jsClamp (w.objs idx).velocity.x maxObjectSpeed (-maxObjectSpeed) ∧
    ((jsUpdate env w idx).objs idx).velocity.y
      = (w.objs idx).damping * jsClamp (w.objs idx).velocity.y maxObjectSpeed (-maxObjectSpeed)
        + gravityConst * (w.objs idx).gravityScale ∧
    ((w.objs idx).gravityScale = 0 →
      ((jsUpdate env w idx).objs idx).velocity.y
        = (w.objs idx).damping * jsClamp (w.objs idx).velocity.y maxObjectSpeed (-maxObjectSpeed)) := by
  have hred : ((jsUpdate env w idx).objs idx).velocity =
      ⟨(w.objs idx).damping * jsClamp (w.objs idx).velocity.x maxObjectSpeed (-maxObjectSpeed),
       (w.objs idx).damping * jsClamp (w.objs idx).velocity.y maxObjectSpeed (-maxObjectSpeed)
         + gravityConst * (w.objs idx).gravityScale⟩ := by
    simp only [jsUpdate, hp]
    simp only [hm, if_pos rfl, setObj, if_pos]
  rw [hred]
  exact ⟨rfl, rfl, fun h0 => by rw [h0]; ring⟩

/-- C1 amended witness: the theorem applied to the concrete fixed object. -/
theorem massZero_update_velocity_witness :
    (worldC1.objs 0).parent = none ∧ (worldC1.objs 0).mass = 0 ∧
    ((jsUpdate envTriv worldC1 0).objs 0).velocity.y
      = (worldC1.objs 0).damping * jsClamp (worldC1.objs 0).velocity.y maxObjectSpeed (-maxObjectSpeed)
        + gravityConst * (worldC1.objs 0).gravityScale :=
  ⟨rfl, rfl, (massZero_update_velocity envTriv worldC1 0 rfl rfl).2.1⟩

/-- C8: an entity with a parent gets its transform copied from the parent
(world position = parent position + local offset mirrored on x and rotated
through the parent's angle; world angle = mirror sign * local angle +
parent angle) and nothing else changes: every other field of the entity,
every other object, the registries and the grid are untouched, so no
physics (integration, gravity, damping, clamping, collision resolution)
runs for it. -/
theorem update_parented_transform (env : JsEnv) (w : PhysWorld) (idx pid : ℕ)
    (hp : (w.objs idx).parent = some pid) :
    ((jsUpdate env w idx).objs idx).pos
      = vecAdd (vecRotate (vecMul (w.objs idx).localPos ⟨getMirrorSign (w.objs idx), 1⟩)
          (env.cosF (-(w.objs pid).angle)) (env.sinF (-(w.objs pid).angle))) (w.objs pid).pos ∧
    ((jsUpdate env w idx).objs idx).angle
      = getMirrorSign (w.objs idx) * (w.objs idx).localAngle + (w.objs pid).angle ∧
    ((jsUpdate env w idx).objs idx).velocity = (w.objs idx).velocity ∧
    ((jsUpdate env w idx).objs idx).angleVelocity = (w.objs idx).angleVelocity ∧
    ((jsUpdate env w idx).objs idx).size = (w.objs idx).size ∧
    ((jsUpdate env w idx).objs idx).mass = (w.objs idx).mass ∧
    ((jsUpdate env w idx).objs idx).damping = (w.objs idx).damping ∧
    ((jsUpdate env w idx).objs idx).angleDamping = (w.objs idx).angleDamping ∧
    ((jsUpdate env w idx).objs idx).elasticity = (w.objs idx).elasticity ∧
    ((jsUpdate env w idx).objs idx).friction = (w.objs idx).friction ∧
    ((jsUpdate env w idx).objs idx).gravityScale = (w.objs idx).gravityScale ∧
    ((jsUpdate env w idx).objs idx).parent = (w.objs idx).parent ∧
    ((jsUpdate env w idx).objs idx).localPos = (w.objs idx).localPos ∧
    ((jsUpdate env w idx).objs idx).localAngle = (w.objs idx).localAngle ∧
    ((jsUpdate env w idx).objs idx).mirror = (w.objs idx).mirror ∧
    ((jsUpdate env w idx).objs idx).ground = (w.objs idx).ground ∧
    ((jsUpdate env w idx).objs idx).isSolid = (w.objs idx).isSolid ∧
    ((jsUpdate env w idx).objs idx).collideSolidObjects = (w.objs idx).collideSolidObjects ∧
    ((jsUpdate env w idx).objs idx).collideTiles = (w.objs idx).collideTiles ∧
    ((jsUpdate env w idx).objs idx).destroyed = (w.objs idx).destroyed ∧
    (jsUpdate env w idx).grid = w.grid ∧
    (jsUpdate env w idx).collideIds = w.collideIds ∧
    (∀ j, j ≠ idx → (jsUpdate env w idx).objs j = w.objs j) := by
  have hobj : ∀ j, (jsUpdate env w idx).objs j =
      if j = idx then { w.objs idx with
         pos := vecAdd (vecRotate (vecMul (w.objs idx).localPos ⟨getMirrorSign (w.objs idx), 1⟩)
           (env.cosF (-(w.objs pid).angle)) (env.sinF (-(w.objs pid).angle))) (w.objs pid).pos
         angle := getMirrorSign (w.objs idx) * (w.objs idx).localAngle + (w.objs pid).angle }
      else w.objs j := by
    intro j
    simp only [jsUpdate, hp, setObj]
  have hgrid : (jsUpdate env w idx).grid = w.grid := by simp only [jsUpdate, hp]
  have hcoll : (jsUpdate env w idx).collideIds = w.collideIds := by simp only [jsUpdate, hp]
  simp [hobj, hgrid, hcoll]
  intro j hj hj2
  exact absurd hj2 hj

/-- C8 witness: the theorem applied to the concrete attached child. -/
theorem update_parented_transform_witness :
    (worldC8.objs 0).parent = some 1 ∧
    ((jsUpdate envTriv worldC8 0).objs 0).velocity = (worldC8.objs 0).velocity ∧
    ((jsUpdate envTriv worldC8 0).objs 0).angle
      = getMirrorSign (worldC8.objs 0) * (worldC8.objs 0).localAngle + (worldC8.objs 1).angle := by
  have h := update_parented_transform envTriv worldC8 0 1 rfl
  exact ⟨rfl, h.2.2.1, h.2.1⟩

/-- C3: when a colliding pair of root entities with positive masses is
resolved by the momentum-averaging branch on an axis (not the restitution
bounce branch), both entities leave with that axis velocity equal to
`(m1*v1 + m2*v2)/(m1+m2)`, so axis momentum `m1*v1' + m2*v2'` equals
`m1*v1 + m2*v2`.  The first conjunct covers the vertical resolution (taken
when `smallStepUp || isBlockedY || !isBlockedX`, provided the other entity
is not grounded-with-downward-motion, which would bounce instead); the
second covers the horizontal resolution (taken when `!smallStepUp &&
(isBlockedX || !isBlockedY)`). -/
theorem collide_momentum_avg (env : JsEnv) (i oid : ℕ) (oldPos : Vec2)
    (wasMovingDown : Bool) (a o : EngineObj)
    (hsolid : a.isSolid = true ∨ o.isSolid = true)
    (hdes : o.destroyed = false) (hpar : o.parent = none)
    (hov : isOverlapping a.pos a.size o.pos o.size = true)
    (hold : isOverlapping oldPos a.size o.pos o.size = false)
    (hma : 0 < a.mass) (hmo : 0 < o.mass) :
    (((oldPos.y - o.pos.y) * 2 > a.size.y + o.size.y + gravityConst ∨
        jsAbs (oldPos.x - o.pos.x) * 2 < a.size.x + o.size.x ∨
        ¬(jsAbs (oldPos.y - o.pos.y) * 2 < a.size.y + o.size.y)) →
      ¬(o.ground ≠ none ∧ wasMovingDown = true) →
      ((objectCollideBody env i oid oldPos wasMovingDown false a o).1.velocity.y
          = (a.mass * a.velocity.y + o.mass * o.velocity.y) / (a.mass + o.mass) ∧
       (objectCollideBody env i oid oldPos wasMovingDown false a o).2.velocity.y
          = (a.mass * a.velocity.y + o.mass * o.velocity.y) / (a.mass + o.mass) ∧
       a.mass * (objectCollideBody env i oid oldPos wasMovingDown false a o).1.velocity.y
         + o.mass * (objectCollideBody env i oid oldPos wasMovingDown false a o).2.velocity.y
         = a.mass * a.velocity.y + o.mass * o.velocity.y)) ∧
    ((¬((oldPos.y - o.pos.y) * 2 > a.size.y + o.size.y + gravityConst) ∧
        (jsAbs (oldPos.y - o.pos.y) * 2 < a.size.y + o.size.y ∨
         ¬(jsAbs (oldPos.x - o.pos.x) * 2 < a.size.x + o.size.x))) →
      ((objectCollideBody env i oid oldPos wasMovingDown false a o).1.velocity.x
          = (a.mass * a.velocity.x + o.mass * o.velocity.x) / (a.mass + o.mass) ∧
       (objectCollideBody env i oid oldPos wasMovingDown false a o).2.velocity.x
          = (a.mass * a.velocity.x + o.mass * o.velocity.x) / (a.mass + o.mass) ∧
       a.mass * (objectCollideBody env i oid oldPos wasMovingDown false a o).1.velocity.x
         + o.mass * (objectCollideBody env i oid oldPos wasMovingDown false a o).2.velocity.x
         = a.mass * a.velocity.x + o.mass * o.velocity.x)) := by
  have hma' : a.mass ≠ 0 := ne_of_gt hma
  have hmo' : o.mass ≠ 0 := ne_of_gt hmo
  have hsum : a.mass + o.mass ≠ 0 := by positivity
  have hc1 : ¬((!a.isSolid && !o.isSolid || o.destroyed || !decide (o.parent = none)) = true) := by
    simp [hdes, hpar]
    rcases hsolid with h | h <;> simp [h]
  have hred : objectCollideBody env i oid oldPos wasMovingDown false a o =
      (let sx := a.size.x + o.size.x
       let sy := a.size.y + o.size.y
       let smallStepUp := decide ((oldPos.y - o.pos.y) * 2 > sy + gravityConst)
       let isBlockedX := decide (jsAbs (oldPos.y - o.pos.y) * 2 < sy)
       let isBlockedY := decide (jsAbs (oldPos.x - o.pos.x) * 2 < sx)
       let p1 :=
        if smallStepUp || isBlockedY || !isBlockedX then
          let aP := { a with pos := { a.pos with
            y := o.pos.y + (sy * (1 / 2) + collideEpsilon) * jsSign (oldPos.y - o.pos.y) } }
          if (!(o.ground = none) && wasMovingDown) || o.mass = 0 then
            let aG := if wasMovingDown then { aP with ground := some (some oid) } else aP
            ({ aG with velocity := { aG.velocity with y := aG.velocity.y * (-aG.elasticity) } }, o)
          else if o.mass ≠ 0 then
            let avg := (aP.mass * aP.velocity.y + o.mass * o.velocity.y) / (aP.mass + o.mass)
            ( { aP with velocity := { aP.velocity with y := avg } },
              { o with velocity := { o.velocity with y := avg } } )
          else (aP, o)
        else (a, o)
       if !smallStepUp && (isBlockedX || !isBlockedY) then
        let aP := { p1.1 with pos := { p1.1.pos with
          x := p1.2.pos.x + (sx * (1 / 2) + collideEpsilon) * jsSign (oldPos.x - o.pos.x) } }
        if p1.2.mass ≠ 0 then
          let avg := (aP.mass * aP.velocity.x + p1.2.mass * p1.2.velocity.x) / (aP.mass + p1.2.mass)
          ( { aP with velocity := { aP.velocity with x := avg } },
            { p1.2 with velocity := { p1.2.velocity with x := avg } } )
        else ({ aP with velocity := { aP.velocity with x := aP.velocity.x * (-aP.elasticity) } }, p1.2)
       else p1) := by
    unfold objectCollideBody
    rw [if_neg hc1, if_neg (by simp [hov]), if_neg (by simp [hold])]
  rw [hred]
  clear hred
  constructor
  · rintro hyb hng
    have hybB : (decide ((oldPos.y - o.pos.y) * 2 > a.size.y + o.size.y + gravityConst) ||
        decide (jsAbs (oldPos.x - o.pos.x) * 2 < a.size.x + o.size.x) ||
        !decide (jsAbs (oldPos.y - o.pos.y) * 2 < a.size.y + o.size.y)) = true := by
      rcases hyb with h | h | h <;> simp [h]
    have hgB : ((!decide (o.ground = none)) && wasMovingDown) = false := by
      by_cases hgr : o.ground = none
      · simp [hgr]
      · have hw : wasMovingDown = false := by
          cases wasMovingDown with
          | true => exact absurd ⟨hgr, rfl⟩ hng
          | false => rfl
        simp [hw]
    simp only [hybB, hgB, hmo', Bool.false_or, Bool.or_false, Bool.true_or,
      Bool.false_eq_true, if_false, if_true, decide_False, ne_eq, not_false_eq_true]
    cases hx : (!decide ((oldPos.y - o.pos.y) * 2 > a.size.y + o.size.y + gravityConst) &&
        (decide (jsAbs (oldPos.y - o.pos.y) * 2 < a.size.y + o.size.y) ||
         !decide (jsAbs (oldPos.x - o.pos.x) * 2 < a.size.x + o.size.x))) with
    | true =>
      simp only [hx, if_true, ne_eq, hmo', not_false_eq_true]
      refine ⟨by simp, by simp, by field_simp; ring⟩
    | false =>
      simp only [hx, Bool.false_eq_true, if_false]
      refine ⟨by simp, by simp, by field_simp; ring⟩
  · rintro ⟨hnS, hbx⟩
    have hSB : decide ((oldPos.y - o.pos.y) * 2 > a.size.y + o.size.y + gravityConst) = false := by
      simp [hnS]
    have hxB : (decide (jsAbs (oldPos.y - o.pos.y) * 2 < a.size.y + o.size.y) ||
        !decide (jsAbs (oldPos.x - o.pos.x) * 2 < a.size.x + o.size.x)) = true := by
      rcases hbx with h | h <;> simp [h]
    simp only [hSB, Bool.not_false, Bool.true_and, Bool.false_or, hxB, if_true, ne_eq, hmo',
      not_false_eq_true, decide_False]
    cases hyB : (decide (jsAbs (oldPos.x - o.pos.x) * 2 < a.size.x + o.size.x) ||
        !decide (jsAbs (oldPos.y - o.pos.y) * 2 < a.size.y + o.size.y)) with
    | false =>
      simp only [hyB, Bool.false_eq_true, if_false, ne_eq, hmo', not_false_eq_true, if_true]
      refine ⟨by simp, by simp, by field_simp; ring⟩
    | true =>
      simp only [hyB, if_true]
      cases hg2 : (!decide (o.ground = none) && wasMovingDown) with
      | true =>
        have hw : wasMovingDown = true := by
          revert hg2; cases wasMovingDown <;> simp
        simp only [hg2, hw, Bool.true_or, if_true, ne_eq, hmo', not_false_eq_true,
          decide_False, Bool.or_false]
        refine ⟨by simp, by simp, by field_simp; ring⟩
      | false =>
        simp only [hg2, Bool.false_or, decide_False, Bool.false_eq_true, if_false, ne_eq,
          hmo', not_false_eq_true, if_true]
        refine ⟨by simp, by simp, by field_simp; ring⟩

/-- C3 witness: two equal-mass (1) entities meeting head-on at +1 and -1
on the x-axis with restitution 0 both leave the horizontal resolution with
velocity.x = 0. -/
theorem collide_momentum_avg_witness :
    objC3a.isSolid = true ∧ objC3b.destroyed = false ∧ objC3b.parent = none ∧
    isOverlapping objC3a.pos objC3a.size objC3b.pos objC3b.size = true ∧
    isOverlapping oldPosC3 objC3a.size objC3b.pos objC3b.size = false ∧
    (objectCollideBody envTriv 0 5 oldPosC3 false false objC3a objC3b).1.velocity.x = 0 ∧
    (objectCollideBody envTriv 0 5 oldPosC3 false false objC3a objC3b).2.velocity.x = 0 := by
  have hov : isOverlapping objC3a.pos objC3a.size objC3b.pos objC3b.size = true := by
    norm_num [isOverlapping, jsAbs, objC3a, objC3b, objC1]
  have hold : isOverlapping oldPosC3 objC3a.size objC3b.pos objC3b.size = false := by
    norm_num [isOverlapping, jsAbs, oldPosC3, objC3a, objC3b, objC1]
  have h := (collide_momentum_avg envTriv 0 5 oldPosC3 false objC3a objC3b
    (Or.inl rfl) rfl rfl hov hold
    (by norm_num [objC3a, objC1]) (by norm_num [objC3b, objC1])).2
    ⟨by norm_num [oldPosC3, objC3a, objC3b, objC1, gravityConst],
     Or.inl (by norm_num [jsAbs, oldPosC3, objC3a, objC3b, objC1])⟩
  refine ⟨rfl, rfl, rfl, hov, hold, ?_, ?_⟩
  · rw [h.1]; norm_num [objC3a, objC3b, objC1]
  · rw [h.2.1]; norm_num [objC3a, objC3b, objC1]

lemma setNode_self (s : HState) (i : ℕ) (n : HNode) : setNode s i n i = n := by simp [setNode]

lemma setNode_ne (s : HState) (i j : ℕ) (n : HNode) (h : j ≠ i) : setNode s i n j = s j := by
  simp [setNode, h]

lemma hChg_refl (s : HState) : hChg s s := fun _ => ⟨Or.inl rfl, id⟩

lemma hChg_trans {s t u : HState} (h1 : hChg s t) (h2 : hChg t u) : hChg s u := by
  intro i
  obtain ⟨hp1, hd1⟩ := h1 i
  obtain ⟨hp2, hd2⟩ := h2 i
  refine ⟨?_, fun h => hd2 (hd1 h)⟩
  rcases hp2 with h2' | h2'
  · rw [h2']; exact hp1
  · exact Or.inr h2'

lemma foldl_hChg {α : Type} (f : HState → α → HState) (hf : ∀ s a, hChg s (f s a)) :
    ∀ (L : List α) (s : HState), hChg s (L.foldl f s) := by
  intro L
  induction L with
  | nil => intro s; exact hChg_refl s
  | cons a L ihL => intro s; exact hChg_trans (hf s a) (ihL (f s a))

lemma hChg_hRemoveChild (s : HState) (p c : ℕ) : hChg s (hRemoveChild s p c) := by
  intro i
  unfold hRemoveChild
  by_cases hic : i = c
  · subst hic
    rw [setNode_self]
    by_cases hip : i = p <;> simp [setNode, hip]
  · rw [setNode_ne _ _ _ _ hic]
    by_cases hip : i = p
    · subst hip; rw [setNode_self]; exact ⟨Or.inl rfl, id⟩
    · rw [setNode_ne _ _ _ _ hip]; exact ⟨Or.inl rfl, id⟩

lemma hDestroy_hChg : ∀ (n e : ℕ) (s : HState), hChg s (hDestroy n e s) := by
  intro n
  induction n with
  | zero => intro e s; exact hChg_refl s
  | succ n ih =>
    intro e s
    rw [hDestroy]
    split
    · exact hChg_refl s
    · have h01 : hChg s (setNode s e { s e with destroyed := true }) := by
        intro i
        by_cases hie : i = e
        · subst hie; rw [setNode_self]; exact ⟨Or.inl rfl, fun _ => rfl⟩
        · rw [setNode_ne _ _ _ _ hie]; exact ⟨Or.inl rfl, id⟩
      have hstep : ∀ (t : HState) (c : ℕ),
          hChg t (hDestroy n c (setNode t c { t c with parent := none })) := by
        intro t c
        refine hChg_trans ?_ (ih c _)
        intro i
        by_cases hic : i = c
        · subst hic; rw [setNode_self]; exact ⟨Or.inr rfl, id⟩
        · rw [setNode_ne _ _ _ _ hic]; exact ⟨Or.inl rfl, id⟩
      cases hp : (setNode s e { s e with destroyed := true } e).parent with
      | some p =>
        simp only [hp]
        exact hChg_trans h01 (hChg_trans (hChg_hRemoveChild _ p e) (foldl_hChg _ hstep _ _))
      | none =>
        simp only [hp]
        exact hChg_trans h01 (foldl_hChg _ hstep _ _)

lemma hRemoveChild_parent (s : HState) (p c i : ℕ) :
    ((hRemoveChild s p c) i).parent = if i = c then none else (s i).parent := by
  unfold hRemoveChild
  by_cases hic : i = c
  · subst hic; rw [setNode_self]; simp
  · rw [setNode_ne _ _ _ _ hic]
    by_cases hip : i = p
    · subst hip; rw [setNode_self]; simp [hic]
    · rw [setNode_ne _ _ _ _ hip]; simp [hic]

lemma hRemoveChild_children (s : HState) (p c i : ℕ) :
    ((hRemoveChild s p c) i).children = if i = p then jsSplice (s p).children c else (s i).children := by
  unfold hRemoveChild
  by_cases hic : i = c
  · subst hic
    rw [setNode_self]
    by_cases hip : i = p
    · subst hip; rw [setNode_self]; simp
    · rw [setNode_ne _ _ _ _ hip]; simp [hip]
  · rw [setNode_ne _ _ _ _ hic]
    by_cases hip : i = p
    · subst hip; rw [setNode_self]; simp
    · rw [setNode_ne _ _ _ _ hip]; simp [hip]

lemma hRemoveChild_destroyed (s : HState) (p c i : ℕ) :
    ((hRemoveChild s p c) i).destroyed = (s i).destroyed := by
  unfold hRemoveChild
  by_cases hic : i = c
  · subst hic
    rw [setNode_self]
    by_cases hip : i = p
    · subst hip; rw [setNode_self]
    · rw [setNode_ne _ _ _ _ hip]
  · rw [setNode_ne _ _ _ _ hic]
    by_cases hip : i = p
    · subst hip; rw [setNode_self]
    · rw [setNode_ne _ _ _ _ hip]

lemma hAddChild_parent (s : HState) (p c i : ℕ) :
    ((hAddChild s p c) i).parent = if i = c then some p else (s i).parent := by
  unfold hAddChild
  by_cases hic : i = c
  · subst hic; rw [setNode_self]; simp
  · rw [setNode_ne _ _ _ _ hic]
    by_cases hip : i = p
    · subst hip; rw [setNode_self]; simp [hic]
    · rw [setNode_ne _ _ _ _ hip]; simp [hic]

lemma hAddChild_children (s : HState) (p c i : ℕ) :
    ((hAddChild s p c) i).children = if i = p then (s p).children ++ [c] else (s i).children := by
  unfold hAddChild
  by_cases hic : i = c
  · subst hic
    rw [setNode_self]
    by_cases hip : i = p
    · subst hip; rw [setNode_self]; simp
    · rw [setNode_ne _ _ _ _ hip]; simp [hip]
  · rw [setNode_ne _ _ _ _ hic]
    by_cases hip : i = p
    · subst hip; rw [setNode_self]; simp
    · rw [setNode_ne _ _ _ _ hip]; simp [hip]

lemma hAddChild_destroyed (s : HState) (p c i : ℕ) :
    ((hAddChild s p c) i).destroyed = (s i).destroyed := by
  unfold hAddChild
  by_cases hic : i = c
  · subst hic
    rw [setNode_self]
    by_cases hip : i = p
    · subst hip; rw [setNode_self]
    · rw [setNode_ne _ _ _ _ hip]
  · rw [setNode_ne _ _ _ _ hic]
    by_cases hip : i = p
    · subst hip; rw [setNode_self]
    · rw [setNode_ne _ _ _ _ hip]

lemma hAddChild_consistent (s : HState) (p c : ℕ) (hs : hConsistent s)
    (h1 : (s c).parent = none) (h2 : c ∉ (s p).children) :
    hConsistent (hAddChild s p c) := by
  obtain ⟨hnd, hd1, hd2⟩ := hs
  refine ⟨?_, ?_, ?_⟩
  · intro q
    rw [hAddChild_children]
    split
    · next hq =>
      subst hq
      rw [List.nodup_append]
      exact ⟨hnd q, List.nodup_singleton c, by simpa using h2⟩
    · exact hnd q
  · intro q c'
    rw [hAddChild_children, hAddChild_destroyed, hAddChild_parent]
    split
    · next hq =>
      subst hq
      intro hmem
      rcases List.mem_append.mp hmem with hmem | hmem
      · have hcc : ¬(c' = c) := fun h => h2 (h ▸ hmem)
        rw [if_neg hcc]
        exact hd1 q c' hmem
      · have hcc : c' = c := by simpa using hmem
        rw [if_pos hcc]
        exact Or.inr rfl
    · intro hmem
      split
      · next hcc =>
        subst hcc
        rcases hd1 q c' hmem with h | h
        · exact Or.inl h
        · rw [h1] at h; cases h
      · exact hd1 q c' hmem
  · intro c' q
    rw [hAddChild_parent, hAddChild_children]
    split
    · next hcc =>
      subst hcc
      intro hq
      have hq' : q = p := by simpa using hq.symm
      subst hq'
      rw [if_pos rfl]
      simp
    · intro hq
      have := hd2 c' q hq
      split
      · next hqp => subst hqp; exact List.mem_append_left _ this
      · exact this

lemma hRemoveChild_consistent (s : HState) (p c : ℕ) (hs : hConsistent s)
    (h1 : (s c).parent = some p) (h2 : c ∈ (s p).children) :
    hConsistent (hRemoveChild s p c) := by
  obtain ⟨hnd, hd1, hd2⟩ := hs
  have hsp : jsSplice (s p).children c = (s p).children.erase c := by
    unfold jsSplice
    rw [if_pos h2]
  refine ⟨?_, ?_, ?_⟩
  · intro q
    rw [hRemoveChild_children]
    split
    · next hq => subst hq; rw [hsp]; exact (hnd _).erase c
    · exact hnd q
  · intro q c'
    rw [hRemoveChild_children, hRemoveChild_destroyed, hRemoveChild_parent]
    split
    · next hq =>
      subst hq
      rw [hsp]
      intro hmem
      have hcc : ¬(c' = c) := fun h => ((hnd q).not_mem_erase (h ▸ hmem))
      rw [if_neg hcc]
      exact hd1 q c' (List.mem_of_mem_erase hmem)
    · next hq =>
      intro hmem
      split
      · next hcc =>
        subst hcc
        rcases hd1 q c' hmem with h | h
        · exact Or.inl h
        · rw [h1] at h
          exact absurd (Option.some_injective _ h).symm hq
      · exact hd1 q c' hmem
  · intro c' q
    rw [hRemoveChild_parent, hRemoveChild_children]
    split
    · next hcc => intro hq; cases hq
    · next hcc =>
      intro hq
      have hm := hd2 c' q hq
      split
      · next hqp =>
        subst hqp
        rw [hsp]
        exact List.mem_erase_of_ne hcc |>.mpr hm
      · exact hm

lemma hCons_setDestroyed (s : HState) (e : ℕ) (hs : hConsistent s) :
    hConsistent (setNode s e { s e with destroyed := true }) := by
  obtain ⟨hnd, hd1, hd2⟩ := hs
  have hch : ∀ i, ((setNode s e { s e with destroyed := true }) i).children = (s i).children := by
    intro i
    by_cases hie : i = e
    · subst hie; rw [setNode_self]
    · rw [setNode_ne _ _ _ _ hie]
  have hpa : ∀ i, ((setNode s e { s e with destroyed := true }) i).parent = (s i).parent := by
    intro i
    by_cases hie : i = e
    · subst hie; rw [setNode_self]
    · rw [setNode_ne _ _ _ _ hie]
  have hde : ∀ i, (s i).destroyed = true →
      ((setNode s e { s e with destroyed := true }) i).destroyed = true := by
    intro i _
    by_cases hie : i = e
    · subst hie; rw [setNode_self]
    · rw [setNode_ne _ _ _ _ hie]; assumption
  refine ⟨fun q => by rw [hch]; exact hnd q, ?_, ?_⟩
  · intro q c'
    rw [hch, hpa]
    intro hmem
    rcases hd1 q c' hmem with h | h
    · exact Or.inl (hde q h)
    · exact Or.inr h
  · intro c' q
    rw [hpa, hch]
    exact hd2 c' q

lemma hCons_zeroParent (s : HState) (c : ℕ) (hs : hConsistent s)
    (hc : (s c).parent = none ∨ ∃ e, (s c).parent = some e ∧ (s e).destroyed = true) :
    hConsistent (setNode s c { s c with parent := none }) := by
  obtain ⟨hnd, hd1, hd2⟩ := hs
  have hch : ∀ i, ((setNode s c { s c with parent := none }) i).children = (s i).children := by
    intro i
    by_cases hic : i = c
    · subst hic; rw [setNode_self]
    · rw [setNode_ne _ _ _ _ hic]
  have hde : ∀ i, ((setNode s c { s c with parent := none }) i).destroyed = (s i).destroyed := by
    intro i
    by_cases hic : i = c
    · subst hic; rw [setNode_self]
    · rw [setNode_ne _ _ _ _ hic]
  have hpa : ∀ i, ((setNode s c { s c with parent := none }) i).parent
      = if i = c then none else (s i).parent := by
    intro i
    by_cases hic : i = c
    · subst hic; rw [setNode_self]; simp
    · rw [setNode_ne _ _ _ _ hic]; simp [hic]
  refine ⟨fun q => by rw [hch]; exact hnd q, ?_, ?_⟩
  · intro q c'
    rw [hch, hde, hpa]
    intro hmem
    split
    · next hcc =>
      subst hcc
      rcases hd1 q c' hmem with h | h
      · exact Or.inl h
      · rcases hc with hc | ⟨e, he1, he2⟩
        · rw [h] at hc; cases hc
        · rw [h] at he1
          have : q = e := Option.some_injective _ he1
          subst this
          exact Or.inl he2
    · exact hd1 q c' hmem
  · intro c' q
    rw [hpa, hch]
    split
    · intro hq; cases hq
    · exact hd2 c' q

lemma hDestroy_consistent : ∀ (n e : ℕ) (s : HState),
    hConsistent s → hConsistent (hDestroy n e s) := by
  intro n
  induction n with
  | zero => intro e s hs; exact hs
  | succ n ih =>
    intro e s hs
    rw [hDestroy]
    split
    · exact hs
    · next hde =>
      have hfold : ∀ (L : List ℕ) (t : HState), hConsistent t → (t e).destroyed = true →
          (∀ c ∈ L, (t c).parent = some e ∨ (t c).parent = none) →
          hConsistent (L.foldl
            (fun acc c => hDestroy n c (setNode acc c { acc c with parent := none })) t) := by
        intro L
        induction L with
        | nil => intro t ht _ _; exact ht
        | cons c L ihL =>
          intro t ht hdt hpar
          rw [List.foldl_cons]
          have hz : hConsistent (setNode t c { t c with parent := none }) := by
            apply hCons_zeroParent t c ht
            rcases hpar c (List.mem_cons_self c L) with h | h
            · exact Or.inr ⟨e, h, hdt⟩
            · exact Or.inl h
          apply ihL
          · exact ih c _ hz
          · apply (hDestroy_hChg n c (setNode t c { t c with parent := none }) e).2
            by_cases hec : e = c
            · subst hec; rw [setNode_self]; exact hdt
            · rw [setNode_ne _ _ _ _ hec]; exact hdt
          · intro c' hc'
            rcases (hDestroy_hChg n c (setNode t c { t c with parent := none }) c').1 with hpp | hpp
            · rw [hpp]
              by_cases hcc : c' = c
              · subst hcc; rw [setNode_self]; exact Or.inr rfl
              · rw [setNode_ne _ _ _ _ hcc]
                exact hpar c' (List.mem_cons_of_mem _ hc')
            · exact Or.inr hpp
      have hc1 : hConsistent (setNode s e { s e with destroyed := true }) := hCons_setDestroyed s e hs
      apply hfold
      · cases hp : ((setNode s e { s e with destroyed := true }) e).parent with
        | none => exact hc1
        | some p =>
          have hp' : (s e).parent = some p := by rw [setNode_self] at hp; exact hp
          have hmem : e ∈ ((setNode s e { s e with destroyed := true }) p).children := by
            have hm := hs.2.2 e p hp'
            by_cases hpe : p = e
            · subst hpe; rw [setNode_self]; exact hm
            · rw [setNode_ne _ _ _ _ hpe]; exact hm
          exact hRemoveChild_consistent _ p e hc1 hp hmem
      · cases hp : ((setNode s e { s e with destroyed := true }) e).parent with
        | none =>
          show ((setNode s e { s e with destroyed := true }) e).destroyed = true
          rw [setNode_self]
        | some p =>
          show ((hRemoveChild (setNode s e { s e with destroyed := true }) p e) e).destroyed = true
          rw [hRemoveChild_destroyed, setNode_self]
      · cases hp : ((setNode s e { s e with destroyed := true }) e).parent with
        | none =>
          show ∀ c ∈ ((setNode s e { s e with destroyed := true }) e).children,
              ((setNode s e { s e with destroyed := true }) c).parent = some e ∨
              ((setNode s e { s e with destroyed := true }) c).parent = none
          have hp' : (s e).parent = none := by rw [setNode_self] at hp; exact hp
          rw [setNode_self]
          intro c hc
          have hce : ¬(c = e) := by
            intro h
            rw [h] at hc
            rcases hs.2.1 e e hc with h' | h'
            · exact hde h'
            · rw [hp'] at h'; cases h'
          rw [setNode_ne _ _ _ _ hce]
          rcases hs.2.1 e c hc with h | h
          · exact absurd h hde
          · exact Or.inl h
        | some p =>
          show ∀ c ∈ ((hRemoveChild (setNode s e { s e with destroyed := true }) p e) e).children,
              ((hRemoveChild (setNode s e { s e with destroyed := true }) p e) c).parent = some e ∨
              ((hRemoveChild (setNode s e { s e with destroyed := true }) p e) c).parent = none
          have hp' : (s e).parent = some p := by rw [setNode_self] at hp; exact hp
          intro c hc
          rw [hRemoveChild_children] at hc
          by_cases hep : e = p
          · rw [if_pos hep] at hc
            have hchp : ((setNode s e { s e with destroyed := true }) p).children
                = (s e).children := by
              rw [← hep, setNode_self]
            have hpe' : (s e).parent = some e := by rw [hp', hep]
            have hsp2 : jsSplice ((setNode s e { s e with destroyed := true }) p).children e
                = ((s e).children).erase e := by
              rw [hchp]
              unfold jsSplice
              rw [if_pos (by simpa [← hep] using hs.2.2 e e hpe')]
            rw [hsp2] at hc
            have hce : ¬(c = e) := fun h => (hs.1 e).not_mem_erase (h ▸ hc)
            rw [hRemoveChild_parent, if_neg hce, setNode_ne _ _ _ _ hce]
            rcases hs.2.1 e c (List.mem_of_mem_erase hc) with h | h
            · exact absurd h hde
            · exact Or.inl h
          · rw [if_neg hep, setNode_self] at hc
            have hce : ¬(c = e) := by
              intro h
              rw [h] at hc
              rcases hs.2.1 e e hc with h' | h'
              · exact hde h'
              · rw [hp'] at h'
                exact hep (Option.some_injective _ h').symm
            rw [hRemoveChild_parent, if_neg hce, setNode_ne _ _ _ _ hce]
            rcases hs.2.1 e c hc with h | h
            · exact absurd h hde
            · exact Or.inl h

lemma applyHOp_consistent (s : HState) (op : HOp) (hs : hConsistent s)
    (hv : validHOp s op) : hConsistent (applyHOp s op) := by
  cases op with
  | add p c => exact hAddChild_consistent s p c hs hv.1 hv.2
  | remove p c => exact hRemoveChild_consistent s p c hs hv.1 hv.2
  | destroy e fuel => exact hDestroy_consistent fuel e s hs

lemma applyHOps_consistent : ∀ (ops : List HOp) (s : HState),
    hConsistent s → validHOps s ops → hConsistent (applyHOps s ops) := by
  intro ops
  induction ops with
  | nil => intro s hs _; exact hs
  | cons op ops ih =>
    intro s hs hv
    exact ih (applyHOp s op) (applyHOp_consistent s op hs hv.1) hv.2

/-- C4 counterexample: after the valid sequence `addChild(0, 1)` then
`destroy(0)`, entity 1 is still listed in 0's child list but its parent
reference has been cleared (by `destroy`, which mutates the parent link
directly via `child.destroy(child.parent = 0)` and never clears its own
child list); before the destroy the link was mutually consistent. -/
theorem hierarchy_destroy_cex :
    (applyHOps hInit [HOp.add 0 1] 1).parent = some 0 ∧
    1 ∈ (hCex 0).children ∧ (hCex 1).parent = none := by
  refine ⟨?_, ?_, ?_⟩ <;> decide

/-- C4 amended: from any consistent state, any sequence of `addChild`,
`removeChild`, `destroy` calls that respects the documented `ASSERT`
preconditions preserves the hierarchy invariant, and mutual consistency
holds restricted to live entities: a live child's parent reference is
`some p` exactly when it appears in the live parent's child list.
(Unrestricted mutual consistency, and "only addChild/removeChild mutate
the parent link", fail: see the counterexample.) -/
theorem hierarchy_live_consistent (s : HState) (ops : List HOp)
    (hs : hConsistent s) (hv : validHOps s ops) :
    hConsistent (applyHOps s ops) ∧
    (∀ p c, ((applyHOps s ops) p).destroyed = false →
      ((applyHOps s ops) c).destroyed = false →
      (((applyHOps s ops) c).parent = some p ↔ c ∈ ((applyHOps s ops) p).children)) := by
  have hc := applyHOps_consistent ops s hs hv
  refine ⟨hc, fun p c hp _ => ⟨fun h => hc.2.2 c p h, fun h => ?_⟩⟩
  rcases hc.2.1 p c h with h' | h'
  · rw [hp] at h'; cases h'
  · exact h'

/-- C4 witness: the invariant theorem applied to the counterexample's
op sequence from the empty initial state. -/
theorem hierarchy_live_consistent_witness :
    hConsistent (applyHOps hInit [HOp.add 0 1, HOp.destroy 0 2]) ∧
    (∀ p c, ((applyHOps hInit [HOp.add 0 1, HOp.destroy 0 2]) p).destroyed = false →
      ((applyHOps hInit [HOp.add 0 1, HOp.destroy 0 2]) c).destroyed = false →
      (((applyHOps hInit [HOp.add 0 1, HOp.destroy 0 2]) c).parent = some p ↔
        c ∈ ((applyHOps hInit [HOp.add 0 1, HOp.destroy 0 2]) p).children)) := by
  apply hierarchy_live_consistent
  · refine ⟨fun p => ?_, fun p c h => ?_, fun c p h => ?_⟩
    · simp [hInit]
    · simp [hInit] at h
    · simp [hInit] at h
  · refine ⟨⟨rfl, ?_⟩, trivial, trivial⟩
    simp [hInit]

lemma hDestroy_of_destroyed (m e : ℕ) (s : HState) (h : (s e).destroyed = true) :
    hDestroy m e s = s := by
  cases m with
  | zero => rfl
  | succ m => rw [hDestroy, if_pos h]

lemma hDestroy_succ_destroyed (n e : ℕ) (s : HState) :
    ((hDestroy (n + 1) e s) e).destroyed = true := by
  rw [hDestroy]
  split
  · assumption
  · apply (foldl_hChg _ ?_ _ _ e).2
    · cases hp : ((setNode s e { s e with destroyed := true }) e).parent with
      | none =>
        show ((setNode s e { s e with destroyed := true }) e).destroyed = true
        rw [setNode_self]
      | some p =>
        show ((hRemoveChild (setNode s e { s e with destroyed := true }) p e) e).destroyed = true
        rw [hRemoveChild_destroyed, setNode_self]
    · intro t c
      refine hChg_trans ?_ (hDestroy_hChg n c _)
      intro i
      by_cases hic : i = c
      · subst hic; rw [setNode_self]; exact ⟨Or.inr rfl, id⟩
      · rw [setNode_ne _ _ _ _ hic]; exact ⟨Or.inl rfl, id⟩

/-- C10: `destroy` is idempotent.  A call on an entity whose destroyed
flag is already set returns immediately and changes nothing, and since
any (fueled) `destroy` call leaves the entity's flag set, a second
`destroy` after a first one is always a no-op: the state — the entity,
its former parent's child list, and all descendants — is exactly what the
first call left. -/
theorem destroy_idempotent (s : HState) (e n m : ℕ) :
    ((s e).destroyed = true → hDestroy m e s = s) ∧
    hDestroy m e (hDestroy (n + 1) e s) = hDestroy (n + 1) e s := by
  refine ⟨fun h => hDestroy_of_destroyed m e s h, ?_⟩
  exact hDestroy_of_destroyed m e _ (hDestroy_succ_destroyed n e s)

/-- C10 witness: a second `destroy` of entity 0 after a first one changes
nothing, applied at a concrete destroyed state. -/
theorem destroy_idempotent_witness :
    ((hDestroy 1 0 hInit) 0).destroyed = true ∧
    hDestroy 3 0 (hDestroy 1 0 hInit) = hDestroy 1 0 hInit :=
  ⟨by decide, (destroy_idempotent (hDestroy 1 0 hInit) 0 0 3).1 (by decide)⟩

/-- C9: the scheduler tick.  (1) An entity whose destroyed flag is set at
the moment of its visit is neither updated nor are its descendants
visited.  (2)-(5) After the tick, neither registry contains a destroyed
entity and every non-destroyed member is retained.  (6)-(11) In the
concrete scenario — three roots where root 0's update destroys root 1
mid-traversal — root 1 never runs (its mark stays clear) while roots 0
and 2 do, and compaction drops 1 from both registries. -/
theorem engineUpdateObjects_spec (upd : ℕ → HState → HState) (fuel : ℕ) (st : SchedState)
    (o : ℕ) (s : HState) (hdes : (s o).destroyed = true) :
    updateObjectFuel upd fuel o s = s ∧
    (∀ i ∈ (engineUpdateObjects upd fuel st).objects,
       ((engineUpdateObjects upd fuel st).nodes i).destroyed = false) ∧
    (∀ i ∈ (engineUpdateObjects upd fuel st).collideObjects,
       ((engineUpdateObjects upd fuel st).nodes i).destroyed = false) ∧
    (∀ i ∈ st.objects, ((engineUpdateObjects upd fuel st).nodes i).destroyed = false →
       i ∈ (engineUpdateObjects upd fuel st).objects) ∧
    (∀ i ∈ st.collideObjects, ((engineUpdateObjects upd fuel st).nodes i).destroyed = false →
       i ∈ (engineUpdateObjects upd fuel st).collideObjects) ∧
    ((engineUpdateObjects schedUpd 4 schedSt).nodes 1).mark = false ∧
    ((engineUpdateObjects schedUpd 4 schedSt).nodes 1).destroyed = true ∧
    ((engineUpdateObjects schedUpd 4 schedSt).nodes 0).mark = true ∧
    ((engineUpdateObjects schedUpd 4 schedSt).nodes 2).mark = true ∧
    (engineUpdateObjects schedUpd 4 schedSt).objects = [0, 2] ∧
    (engineUpdateObjects schedUpd 4 schedSt).collideObjects = [2] := by
  refine ⟨?_, ?_, ?_, ?_, ?_, by decide, by decide, by decide, by decide, by decide, by decide⟩
  · cases fuel with
    | zero => rfl
    | succ n => rw [updateObjectFuel, if_pos hdes]
  · intro i hi
    simp only [engineUpdateObjects, List.mem_filter] at hi
    simpa [engineUpdateObjects] using hi.2
  · intro i hi
    simp only [engineUpdateObjects, List.mem_filter] at hi
    simpa [engineUpdateObjects] using hi.2
  · intro i hi hd
    simp only [engineUpdateObjects, List.mem_filter]
    refine ⟨hi, ?_⟩
    simpa [engineUpdateObjects] using hd
  · intro i hi hd
    simp only [engineUpdateObjects, List.mem_filter]
    refine ⟨hi, ?_⟩
    simpa [engineUpdateObjects] using hd

/-- C9 witness: the skip clause applied to a concrete destroyed entity. -/
theorem engineUpdateObjects_spec_witness :
    ((hDestroy 1 1 hInit) 1).destroyed = true ∧
    updateObjectFuel schedUpd 3 1 (hDestroy 1 1 hInit) = hDestroy 1 1 hInit :=
  ⟨by decide, (engineUpdateObjects_spec schedUpd 3 schedSt 1 (hDestroy 1 1 hInit) (by decide)).1⟩
